import Mathlib

/-!
# ESS LFP 48S CAN decoder

A shallow embedding of `ESS_LFP_48S.h` / `ESS_LFP_48S.cpp` (the Arduino library
of the repository) and theorems about the frame decoder.

Modelling conventions

* `uint8_t` values that are only stored and copied are `Byte = Fin 256`.
* `uint32_t` / `uint16_t` arithmetic is done on `Nat` with an explicit
  reduction modulo `2^32` / `2^16`.
* A C `float` is a `FloatVal = Option ℚ`: `none` is `NAN` (the "unset"
  sentinel), `some q` is a number.  The product `(float)raw * 0.001f` is taken
  as the exact rational product of the 16-bit raw integer and the decimal scale
  factor; binary rounding of the product is not modelled.
* The payload pointer `const uint8_t *d` is a byte buffer with at least eight
  readable bytes (the buffer a CAN driver hands over); the decoder only reads
  the constant offsets `0..7`.
* A write `a[i] = v` into a fixed-size member array is fallible: an index
  outside the array yields `none` (undefined behaviour in C++), so
  `updateFromFrame` returns an `Option`.
* An Arduino `String` is a Lean `String`, a `char` made from a byte `b` is
  `Char.ofNat b`.  The conversion `String(float, decimalPlaces)` belongs to the
  Arduino core, not to the repository, and is a parameter of `toJson`.
-/

namespace ESS

/-- One `uint8_t`. -/
abbrev Byte := Fin 256

/-- A C `float`: `none` is `NAN`, `some q` is the number `q`. -/
abbrev FloatVal := Option ℚ

/-- The `NAN` constant of `<math.h>`. -/
def NAN : FloatVal := none

/-- The test `isnan(x)`. -/
def isnan (x : FloatVal) : Bool := x.isNone

/-- The expression `(float)raw * scale` for an unsigned 16-bit `raw`. -/
def fmul (raw : Nat) (scale : ℚ) : FloatVal := some ((raw : ℚ) * scale)

/-- The payload buffer behind `const uint8_t *d`: at least 8 readable bytes. -/
structure Payload where
  bytes : List Byte
  avail : 8 ≤ bytes.length

/-- The read `d[i]` at one of the offsets `0..7`. -/
def Payload.at (d : Payload) (i : Fin 8) : Byte :=
  d.bytes.get ⟨i.val, Nat.lt_of_lt_of_le i.isLt d.avail⟩

/-- The helper `u16be(&d[off])`:
`(uint16_t(p[0]) << 8) | uint16_t(p[1])`, converted to `uint16_t`. -/
def u16be (d : Payload) (off : Fin 8) (h : off.val + 1 < 8) : Nat :=
  (((d.at off).val <<< 8) ||| (d.at ⟨off.val + 1, h⟩).val) % 65536

/-- The data members of class `ESS_LFP_48S`. -/
structure ESS_LFP_48S where
  cellV : Fin 48 → FloatVal
  tempC : Fin 24 → FloatVal
  packVoltage : FloatVal
  maxCellV : FloatVal
  minCellV : FloatVal
  cellDeltaV : FloatVal
  avgTempC : FloatVal
  minTempC : FloatVal
  cellCount : Byte
  tempCount : Byte
  minCellIndex : Byte
  maxCellIndex : Byte
  submoduleCount : Byte
  moduleIndex : Byte
  capacityChar1 : Byte
  capacityChar2 : Byte

/-- The loop `for (int i = 0; i < n; ++i) a[i] = NAN;` over a member array of
`n` floats. -/
def fillNaN {n : Nat} (a : Fin n → FloatVal) : Fin n → FloatVal :=
  (List.finRange n).foldl (fun acc i => Function.update acc i NAN) a

/-- The method `ESS_LFP_48S::reset()`. -/
def reset (s : ESS_LFP_48S) : ESS_LFP_48S :=
  { cellV := fillNaN s.cellV
    tempC := fillNaN s.tempC
    packVoltage := NAN
    maxCellV := NAN
    minCellV := NAN
    cellDeltaV := NAN
    avgTempC := NAN
    minTempC := NAN
    cellCount := 0
    tempCount := 0
    minCellIndex := 0
    maxCellIndex := 0
    submoduleCount := 0
    moduleIndex := 0
    capacityChar1 := 0
    capacityChar2 := 0 }

/-- The constructor `ESS_LFP_48S() { reset(); }`.  The two arrays have no
initialiser, so they start with whatever the memory holds (`cells0`, `temps0`);
the scalars start from their default member initialisers. -/
def construct (cells0 : Fin 48 → FloatVal) (temps0 : Fin 24 → FloatVal) : ESS_LFP_48S :=
  reset
    { cellV := cells0
      tempC := temps0
      packVoltage := NAN
      maxCellV := NAN
      minCellV := NAN
      cellDeltaV := NAN
      avgTempC := NAN
      minTempC := NAN
      cellCount := 0
      tempCount := 0
      minCellIndex := 0
      maxCellIndex := 0
      submoduleCount := 0
      moduleIndex := 0
      capacityChar1 := 0
      capacityChar2 := 0 }

/-- The helper `in_range(x, lo, hi)`. -/
def in_range (x lo hi : Nat) : Bool := decide (x ≥ lo) && decide (x ≤ hi)

/-- Subtraction of two `uint32_t` values (wraps modulo `2^32`). -/
def u32sub (a b : Nat) : Nat := (a + 4294967296 - b % 4294967296) % 4294967296

/-- Multiplication of two `uint32_t` values (wraps modulo `2^32`). -/
def u32mul (a b : Nat) : Nat := (a * b) % 4294967296

/-- Addition of two `uint32_t` values (wraps modulo `2^32`). -/
def u32add (a b : Nat) : Nat := (a + b) % 4294967296

/-- The assignment `a[i] = v` into a member array of `n` floats; `none` when
`i` is outside the array. -/
def writeAt {n : Nat} (a : Fin n → FloatVal) (i : Nat) (v : FloatVal) :
    Option (Fin n → FloatVal) :=
  if h : i < n then some (Function.update a ⟨i, h⟩ v) else none

/-- The method `ESS_LFP_48S::updateFromFrame(id, dlc, d)`: the new object state
and the returned `matched` flag, or `none` when an array write is out of
bounds. -/
def updateFromFrame (s : ESS_LFP_48S) (id dlc : Nat) (d : Payload) :
    Option (ESS_LFP_48S × Bool) := do
  let mut s := s
  let mut matched := false
  -- Cell voltages: 0x18110181 .. 0x18110C81
  if in_range id 0x18110181 0x18110C81 && dlc == 8 then
    let idx := u32sub id 0x18110181 / 0x100
    let base := u32mul idx 4
    let c0 ← writeAt s.cellV (u32add base 0) (fmul (u16be d 0 (by decide)) 0.001)
    let c1 ← writeAt c0 (u32add base 1) (fmul (u16be d 2 (by decide)) 0.001)
    let c2 ← writeAt c1 (u32add base 2) (fmul (u16be d 4 (by decide)) 0.001)
    let c3 ← writeAt c2 (u32add base 3) (fmul (u16be d 6 (by decide)) 0.001)
    s := { s with cellV := c3 }
    matched := true
  -- Temperatures: 0x18120181 .. 0x18120681
  if in_range id 0x18120181 0x18120681 && dlc == 8 then
    let idx := u32sub id 0x18120181 / 0x100
    let base := u32mul idx 4
    let t0 ← writeAt s.tempC (u32add base 0) (fmul (u16be d 0 (by decide)) 0.01)
    let t1 ← writeAt t0 (u32add base 1) (fmul (u16be d 2 (by decide)) 0.01)
    let t2 ← writeAt t1 (u32add base 2) (fmul (u16be d 4 (by decide)) 0.01)
    let t3 ← writeAt t2 (u32add base 3) (fmul (u16be d 6 (by decide)) 0.01)
    s := { s with tempC := t3 }
    matched := true
  -- Pack summary: 0x18130181
  if id == 0x18130181 && decide (dlc ≥ 8) then
    s := { s with maxCellV := fmul (u16be d 0 (by decide)) 0.001 }
    s := { s with minCellV := fmul (u16be d 2 (by decide)) 0.001 }
    s := { s with capacityChar1 := d.at 4 }
    s := { s with capacityChar2 := d.at 5 }
    s := { s with packVoltage := fmul (u16be d 6 (by decide)) 0.1 }
    matched := true
  -- Counts & meta: 0x18130281
  if id == 0x18130281 && decide (dlc ≥ 6) then
    s := { s with cellCount := d.at 0 }
    s := { s with tempCount := d.at 1 }
    s := { s with minCellIndex := d.at 2 }
    s := { s with maxCellIndex := d.at 3 }
    s := { s with submoduleCount := d.at 4 }
    s := { s with moduleIndex := d.at 5 }
    matched := true
  -- Temp/Delta summary: 0x18130381
  if id == 0x18130381 && decide (dlc ≥ 8) then
    s := { s with avgTempC := fmul (u16be d 0 (by decide)) 0.01 }
    s := { s with minTempC := fmul (u16be d 2 (by decide)) 0.01 }
    s := { s with cellDeltaV := fmul (u16be d 4 (by decide)) 0.001 }
    matched := true
  -- Reserved: 0x18130481
  if id == 0x18130481 then
    matched := true
  return (s, matched)

/-- The accessor `getCellV(idx)`. -/
def getCellV (s : ESS_LFP_48S) (idx : Nat) : FloatVal :=
  if h : idx < 48 then s.cellV ⟨idx, h⟩ else NAN

/-- The accessor `getTempC(idx)`. -/
def getTempC (s : ESS_LFP_48S) (idx : Nat) : FloatVal :=
  if h : idx < 24 then s.tempC ⟨idx, h⟩ else NAN

/-- The accessor `capacityB1()`. -/
def capacityB1 (s : ESS_LFP_48S) : Byte := s.capacityChar1

/-- The accessor `capacityB2()`. -/
def capacityB2 (s : ESS_LFP_48S) : Byte := s.capacityChar2

/-- The four scaled big-endian words of a payload, by position `0..3`. -/
def quad (d : Payload) (scale : ℚ) (j : Fin 4) : FloatVal :=
  fmul (u16be d ⟨2 * j.val, by omega⟩ (by simp; omega)) scale

/-- An array after the four writes of a block rule with frame index `idx`. -/
def blockWrite {n : Nat} (a : Fin n → FloatVal) (idx : Nat) (v : Fin 4 → FloatVal) :
    Fin n → FloatVal :=
  fun c => if c.val / 4 = idx then v ⟨c.val % 4, Nat.mod_lt _ (by decide)⟩ else a c

/-- A received CAN frame `(id, dlc, d)` as handed to `updateFromFrame`. -/
structure Frame where
  id : Nat
  dlc : Nat
  data : Payload

/-- The caller's receive loop: one `updateFromFrame` call per frame of the list,
in order, collecting the returned flags. -/
def feed (s : ESS_LFP_48S) : List Frame → Option (ESS_LFP_48S × List Bool)
  | [] => some (s, [])
  | f :: fs =>
    match updateFromFrame s f.id f.dlc f.data with
    | none => none
    | some (s1, m) =>
      match feed s1 fs with
      | none => none
      | some (s2, ms) => some (s2, m :: ms)

/-- The cell-voltage frame number `k` of a family of payloads. -/
def cellFrame (d : Fin 12 → Payload) (k : Fin 12) : Frame :=
  { id := 0x18110181 + k.val * 0x100, dlc := 8, data := d k }

/-- An object whose fields all hold arbitrary "dirty" values, to exercise the
decoder on a non-fresh state. -/
def dirty : ESS_LFP_48S :=
  { cellV := fun _ => some 1
    tempC := fun _ => some 2
    packVoltage := some 3
    maxCellV := some 4
    minCellV := some 5
    cellDeltaV := some 6
    avgTempC := some 7
    minTempC := some 8
    cellCount := 9
    tempCount := 10
    minCellIndex := 11
    maxCellIndex := 12
    submoduleCount := 13
    moduleIndex := 14
    capacityChar1 := 15
    capacityChar2 := 16 }

/-- The pack-summary payload `0C 1C 0B B8 34 33 01 2C`. -/
def packBytes : Payload := ⟨[0x0C, 0x1C, 0x0B, 0xB8, 0x34, 0x33, 0x01, 0x2C], by decide⟩

/-- The payload `0C 1C 0B B8 34 33` followed by `FF EE`: the pack-summary sample
with other bytes at offsets 6 and 7. -/
def packBytesAlt : Payload := ⟨[0x0C, 0x1C, 0x0B, 0xB8, 0x34, 0x33, 0xFF, 0xEE], by decide⟩

/-- The counts payload `48 24 3 17 4 2` followed by two arbitrary bytes and any
further bytes of the buffer. -/
def metaBytes (b6 b7 : Byte) (rest : List Byte) : Payload :=
  ⟨48 :: 24 :: 3 :: 17 :: 4 :: 2 :: b6 :: b7 :: rest, by simp⟩

/-- The object after the one rule (if any) whose guard holds on `(id, dlc)`,
written with the closed form `blockWrite` of the four array writes. -/
def effect (s : ESS_LFP_48S) (id dlc : Nat) (d : Payload) : ESS_LFP_48S :=
  if (0x18110181 ≤ id ∧ id ≤ 0x18110C81) ∧ dlc = 8 then
    { s with cellV := blockWrite s.cellV ((id - 0x18110181) / 256) (quad d 0.001) }
  else if (0x18120181 ≤ id ∧ id ≤ 0x18120681) ∧ dlc = 8 then
    { s with tempC := blockWrite s.tempC ((id - 0x18120181) / 256) (quad d 0.01) }
  else if id = 0x18130181 ∧ 8 ≤ dlc then
    { s with
      maxCellV := fmul (u16be d 0 (by decide)) 0.001
      minCellV := fmul (u16be d 2 (by decide)) 0.001
      capacityChar1 := d.at 4
      capacityChar2 := d.at 5
      packVoltage := fmul (u16be d 6 (by decide)) 0.1 }
  else if id = 0x18130281 ∧ 6 ≤ dlc then
    { s with
      cellCount := d.at 0
      tempCount := d.at 1
      minCellIndex := d.at 2
      maxCellIndex := d.at 3
      submoduleCount := d.at 4
      moduleIndex := d.at 5 }
  else if id = 0x18130381 ∧ 8 ≤ dlc then
    { s with
      avgTempC := fmul (u16be d 0 (by decide)) 0.01
      minTempC := fmul (u16be d 2 (by decide)) 0.01
      cellDeltaV := fmul (u16be d 4 (by decide)) 0.001 }
  else s

/-- Whether some rule of `updateFromFrame` has its guard satisfied by `(id, dlc)`. -/
def fires (id dlc : Nat) : Bool :=
  decide
    (((0x18110181 ≤ id ∧ id ≤ 0x18110C81) ∧ dlc = 8) ∨
     ((0x18120181 ≤ id ∧ id ≤ 0x18120681) ∧ dlc = 8) ∨
     (id = 0x18130181 ∧ 8 ≤ dlc) ∨ (id = 0x18130281 ∧ 6 ≤ dlc) ∨
     (id = 0x18130381 ∧ 8 ≤ dlc) ∨ id = 0x18130481)

/-- A first-match dispatch over the six rules of `updateFromFrame`, as a
mutually exclusive `if / else if` chain: the rules are tried in source order
and only the first one whose guard holds runs. -/
def updateFirstMatch (s : ESS_LFP_48S) (id dlc : Nat) (d : Payload) :
    Option (ESS_LFP_48S × Bool) :=
  if in_range id 0x18110181 0x18110C81 && dlc == 8 then do
    let idx := u32sub id 0x18110181 / 0x100
    let base := u32mul idx 4
    let c0 ← writeAt s.cellV (u32add base 0) (fmul (u16be d 0 (by decide)) 0.001)
    let c1 ← writeAt c0 (u32add base 1) (fmul (u16be d 2 (by decide)) 0.001)
    let c2 ← writeAt c1 (u32add base 2) (fmul (u16be d 4 (by decide)) 0.001)
    let c3 ← writeAt c2 (u32add base 3) (fmul (u16be d 6 (by decide)) 0.001)
    pure ({ s with cellV := c3 }, true)
  else if in_range id 0x18120181 0x18120681 && dlc == 8 then do
    let idx := u32sub id 0x18120181 / 0x100
    let base := u32mul idx 4
    let t0 ← writeAt s.tempC (u32add base 0) (fmul (u16be d 0 (by decide)) 0.01)
    let t1 ← writeAt t0 (u32add base 1) (fmul (u16be d 2 (by decide)) 0.01)
    let t2 ← writeAt t1 (u32add base 2) (fmul (u16be d 4 (by decide)) 0.01)
    let t3 ← writeAt t2 (u32add base 3) (fmul (u16be d 6 (by decide)) 0.01)
    pure ({ s with tempC := t3 }, true)
  else if id == 0x18130181 && decide (dlc ≥ 8) then
    pure ({ s with
            maxCellV := fmul (u16be d 0 (by decide)) 0.001
            minCellV := fmul (u16be d 2 (by decide)) 0.001
            capacityChar1 := d.at 4
            capacityChar2 := d.at 5
            packVoltage := fmul (u16be d 6 (by decide)) 0.1 }, true)
  else if id == 0x18130281 && decide (dlc ≥ 6) then
    pure ({ s with
            cellCount := d.at 0
            tempCount := d.at 1
            minCellIndex := d.at 2
            maxCellIndex := d.at 3
            submoduleCount := d.at 4
            moduleIndex := d.at 5 }, true)
  else if id == 0x18130381 && decide (dlc ≥ 8) then
    pure ({ s with
            avgTempC := fmul (u16be d 0 (by decide)) 0.01
            minTempC := fmul (u16be d 2 (by decide)) 0.01
            cellDeltaV := fmul (u16be d 4 (by decide)) 0.001 }, true)
  else if id == 0x18130481 then
    pure (s, true)
  else
    pure (s, false)

/-- The Arduino conversion `String(const char *)` of a NUL-terminated buffer:
the characters before the first NUL byte. -/
def cString (buf : List Byte) : String :=
  String.mk ((buf.takeWhile fun b => b ≠ 0).map fun b => Char.ofNat b.val)

/-- The method `ESS_LFP_48S::capacityString()`. -/
def capacityString (s : ESS_LFP_48S) : String :=
  cString [s.capacityChar1, s.capacityChar2, 0]

/-- The Arduino conversion `String(unsigned char)`: the decimal digits. -/
def decString (b : Byte) : String := toString b.val

/-- One upper-case hexadecimal digit, as printed by `%X`. -/
def hexDigit (n : Nat) : Char :=
  if n < 10 then Char.ofNat (48 + n) else Char.ofNat (55 + n)

/-- The conversion `%02X` of `snprintf` for a byte: two upper-case hex digits. -/
def hex02 (b : Byte) : String :=
  String.mk [hexDigit (b.val / 16), hexDigit (b.val % 16)]

/-- The loop `for (int i = 0; i < n; ++i) { if (i) out += ","; out += ... }` of
`toJson` over a member array, with `decimals` decimal places. -/
def appendArray {n : Nat} (fmtFloat : FloatVal → Nat → String) (a : Fin n → FloatVal)
    (decimals : Nat) (out : String) : String :=
  (List.finRange n).foldl
    (fun out i =>
      let out := if i.val ≠ 0 then out ++ "," else out
      out ++ (if isnan (a i) then "null" else fmtFloat (a i) decimals))
    out

/-- The method `ESS_LFP_48S::toJson(out)`: the text left in `out`.  The Arduino
conversion `String(float, decimalPlaces)` is not part of the repository and is
the parameter `fmtFloat`. -/
def toJson (fmtFloat : FloatVal → Nat → String) (s : ESS_LFP_48S) : String :=
  let out := "\x7b"
  let out := out ++ ("\"packVoltage\":" ++ fmtFloat s.packVoltage 1 ++ ",")
  let out := out ++ ("\"maxCellV\":" ++ fmtFloat s.maxCellV 3 ++ ",")
  let out := out ++ ("\"minCellV\":" ++ fmtFloat s.minCellV 3 ++ ",")
  let out := out ++ ("\"cellDeltaV\":" ++ fmtFloat s.cellDeltaV 3 ++ ",")
  let out := out ++ ("\"avgTempC\":" ++ fmtFloat s.avgTempC 2 ++ ",")
  let out := out ++ ("\"minTempC\":" ++ fmtFloat s.minTempC 2 ++ ",")
  let out := out ++ ("\"cellCount\":" ++ decString s.cellCount ++ ",")
  let out := out ++ ("\"tempCount\":" ++ decString s.tempCount ++ ",")
  let out := out ++ ("\"minCellIndex\":" ++ decString s.minCellIndex ++ ",")
  let out := out ++ ("\"maxCellIndex\":" ++ decString s.maxCellIndex ++ ",")
  let out := out ++ ("\"submoduleCount\":" ++ decString s.submoduleCount ++ ",")
  let out := out ++ ("\"moduleIndex\":" ++ decString s.moduleIndex ++ ",")
  let out := out ++ ("\"capacity\":\"" ++ capacityString s ++ "\",")
  let out := out ++ ("\"capacityAscii\":\"" ++ capacityString s ++ "\",")
  let hexbuf := "0x" ++ hex02 s.capacityChar1 ++ ",0x" ++ hex02 s.capacityChar2
  let out := out ++ ("\"capacityBytesHex\":\"" ++ hexbuf ++ "\",")
  let out := out ++ ("\"capacityBytesDec\":[" ++ decString s.capacityChar1 ++ "," ++
    decString s.capacityChar2 ++ "],")
  let out := out ++ "\"cells\":["
  let out := appendArray fmtFloat s.cellV 3 out
  let out := out ++ "],\"temps\":["
  let out := appendArray fmtFloat s.tempC 2 out
  out ++ "]\x7d"

/-- The concatenation of a list of strings, left to right. -/
def concatAll (l : List String) : String := l.foldr (fun x acc => x ++ acc) ""

/-- A pack-summary payload whose capacity bytes are `0x22` (a double quote) and
`0x41` (`A`). -/
def quoteBytes : Payload := ⟨[0x0C, 0x1C, 0x0B, 0xB8, 0x22, 0x41, 0x01, 0x2C], by decide⟩

/-! ## Auxiliary lemmas -/

theorem u16be_eq (d : Payload) (off : Fin 8) (h : off.val + 1 < 8) :
    u16be d off h = 256 * (d.at off).val + (d.at ⟨off.val + 1, h⟩).val := by
  unfold u16be
  have h1 := (d.at off).isLt
  have h2 := (d.at ⟨off.val + 1, h⟩).isLt
  rw [Nat.shiftLeft_eq, Nat.mul_comm, ← Nat.mul_add_lt_is_or (i := 8) (by simp)]
  omega

theorem writeAt_of_lt {n : Nat} (a : Fin n → FloatVal) (i : Nat) (v : FloatVal) (h : i < n) :
    writeAt a i v = some (Function.update a ⟨i, h⟩ v) := by
  simp [writeAt, h]

theorem four_writes {n : Nat} (a : Fin n → FloatVal) (idx : Nat) (v : Fin 4 → FloatVal)
    (h : 4 * idx + 3 < n) :
    Function.update (Function.update (Function.update (Function.update a
      ⟨4 * idx, by omega⟩ (v 0)) ⟨4 * idx + 1, by omega⟩ (v 1))
      ⟨4 * idx + 2, by omega⟩ (v 2)) ⟨4 * idx + 3, h⟩ (v 3) = blockWrite a idx v := by
  funext c
  simp only [Function.update_apply, blockWrite, Fin.ext_iff]
  by_cases e : c.val / 4 = idx
  · have hr : c.val % 4 = 0 ∨ c.val % 4 = 1 ∨ c.val % 4 = 2 ∨ c.val % 4 = 3 := by omega
    rcases hr with r | r | r | r
    · have e0 : c.val = 4 * idx := by omega
      have f : (⟨c.val % 4, Nat.mod_lt _ (by decide)⟩ : Fin 4) = 0 := Fin.ext r
      rw [if_neg (by omega), if_neg (by omega), if_neg (by omega), if_pos e0, if_pos e, f]
    · have e0 : c.val = 4 * idx + 1 := by omega
      have f : (⟨c.val % 4, Nat.mod_lt _ (by decide)⟩ : Fin 4) = 1 := Fin.ext r
      rw [if_neg (by omega), if_neg (by omega), if_pos e0, if_pos e, f]
    · have e0 : c.val = 4 * idx + 2 := by omega
      have f : (⟨c.val % 4, Nat.mod_lt _ (by decide)⟩ : Fin 4) = 2 := Fin.ext r
      rw [if_neg (by omega), if_pos e0, if_pos e, f]
    · have e0 : c.val = 4 * idx + 3 := by omega
      have f : (⟨c.val % 4, Nat.mod_lt _ (by decide)⟩ : Fin 4) = 3 := Fin.ext r
      rw [if_pos e0, if_pos e, f]
  · rw [if_neg (by omega), if_neg (by omega), if_neg (by omega), if_neg (by omega), if_neg e]

theorem in_range_iff (x lo hi : Nat) : in_range x lo hi = true ↔ lo ≤ x ∧ x ≤ hi := by
  simp [in_range]

theorem in_range_false (x lo hi : Nat) (h : ¬ (lo ≤ x ∧ x ≤ hi)) : in_range x lo hi = false := by
  rw [← Bool.not_eq_true, in_range_iff]; exact h

theorem block_index (id lo : Nat) (j : Nat) (h : lo ≤ id) (h2 : id < lo + 16777216) (hj : j < 4) :
    u32add (u32mul (u32sub id lo / 0x100) 4) j = 4 * ((id - lo) / 256) + j := by
  unfold u32add u32mul u32sub
  omega

/-- The cell-voltage rule alone fires on an ID of its range with `dlc == 8`. -/
theorem cell_rule (s : ESS_LFP_48S) (id : Nat) (d : Payload)
    (h1 : 0x18110181 ≤ id) (h2 : id ≤ 0x18110C81) :
    updateFromFrame s id 8 d =
      some ({ s with cellV := blockWrite s.cellV ((id - 0x18110181) / 256) (quad d 0.001) },
        true) := by
  have e1 : in_range id 0x18110181 0x18110C81 = true := (in_range_iff _ _ _).2 ⟨h1, h2⟩
  have e2 : in_range id 0x18120181 0x18120681 = false := in_range_false _ _ _ (by omega)
  have hi : 4 * ((id - 0x18110181) / 256) + 3 < 48 := by omega
  have b0 : u32add (u32mul (u32sub id 0x18110181 / 0x100) 4) 0 = 4 * ((id - 0x18110181) / 256) :=
    by unfold u32add u32mul u32sub; omega
  have b1 := block_index id 0x18110181 1 h1 (by omega) (by decide)
  have b2 := block_index id 0x18110181 2 h1 (by omega) (by decide)
  have b3 := block_index id 0x18110181 3 h1 (by omega) (by decide)
  have n3 : id ≠ 0x18130181 := by omega
  have n4 : id ≠ 0x18130281 := by omega
  have n5 : id ≠ 0x18130381 := by omega
  have n6 : id ≠ 0x18130481 := by omega
  simp only [updateFromFrame, e1, e2, n3, n4, n5, n6, bind_pure_comp, beq_self_eq_true,
    Bool.and_self, Bool.false_and, ↓reduceIte, beq_iff_eq, Bool.and_true, Bool.false_eq_true,
    pure_bind, bind_assoc, Option.pure_def, Option.bind_eq_bind, Option.map_eq_map,
    decide_eq_true_eq, Bool.and_eq_true, false_and, b0, b1, b2, b3]
  generalize (id - 0x18110181) / 256 = idx at hi ⊢
  rw [← four_writes s.cellV idx (quad d 0.001) hi]
  simp only [writeAt_of_lt _ _ _ (show 4 * idx < 48 by omega),
    writeAt_of_lt _ _ _ (show 4 * idx + 1 < 48 by omega),
    writeAt_of_lt _ _ _ (show 4 * idx + 2 < 48 by omega),
    writeAt_of_lt _ _ _ hi, Option.some_bind]
  rfl


/-- The temperature rule alone fires on an ID of its range with `dlc == 8`. -/
theorem temp_rule (s : ESS_LFP_48S) (id : Nat) (d : Payload)
    (h1 : 0x18120181 ≤ id) (h2 : id ≤ 0x18120681) :
    updateFromFrame s id 8 d =
      some ({ s with tempC := blockWrite s.tempC ((id - 0x18120181) / 256) (quad d 0.01) },
        true) := by
  have e1 : in_range id 0x18110181 0x18110C81 = false := in_range_false _ _ _ (by omega)
  have e2 : in_range id 0x18120181 0x18120681 = true := (in_range_iff _ _ _).2 ⟨h1, h2⟩
  have hi : 4 * ((id - 0x18120181) / 256) + 3 < 24 := by omega
  have b0 : u32add (u32mul (u32sub id 0x18120181 / 0x100) 4) 0 = 4 * ((id - 0x18120181) / 256) :=
    by unfold u32add u32mul u32sub; omega
  have b1 := block_index id 0x18120181 1 h1 (by omega) (by decide)
  have b2 := block_index id 0x18120181 2 h1 (by omega) (by decide)
  have b3 := block_index id 0x18120181 3 h1 (by omega) (by decide)
  have n3 : id ≠ 0x18130181 := by omega
  have n4 : id ≠ 0x18130281 := by omega
  have n5 : id ≠ 0x18130381 := by omega
  have n6 : id ≠ 0x18130481 := by omega
  simp only [updateFromFrame, e1, e2, n3, n4, n5, n6, bind_pure_comp, beq_self_eq_true,
    Bool.and_self, Bool.false_and, ↓reduceIte, beq_iff_eq, Bool.and_true, Bool.false_eq_true,
    pure_bind, bind_assoc, Option.pure_def, Option.bind_eq_bind, Option.map_eq_map,
    decide_eq_true_eq, Bool.and_eq_true, false_and, b0, b1, b2, b3]
  generalize (id - 0x18120181) / 256 = idx at hi ⊢
  rw [← four_writes s.tempC idx (quad d 0.01) hi]
  simp only [writeAt_of_lt _ _ _ (show 4 * idx < 24 by omega),
    writeAt_of_lt _ _ _ (show 4 * idx + 1 < 24 by omega),
    writeAt_of_lt _ _ _ (show 4 * idx + 2 < 24 by omega),
    writeAt_of_lt _ _ _ hi, Option.some_bind]
  rfl

/-- The pack-summary rule alone fires on `0x18130181` with `dlc >= 8`. -/
theorem pack_rule (s : ESS_LFP_48S) (dlc : Nat) (d : Payload) (h : 8 ≤ dlc) :
    updateFromFrame s 0x18130181 dlc d =
      some ({ s with
              maxCellV := fmul (u16be d 0 (by decide)) 0.001
              minCellV := fmul (u16be d 2 (by decide)) 0.001
              capacityChar1 := d.at 4
              capacityChar2 := d.at 5
              packVoltage := fmul (u16be d 6 (by decide)) 0.1 }, true) := by
  simp [updateFromFrame, in_range, h]

/-- The counts rule alone fires on `0x18130281` with `dlc >= 6`. -/
theorem meta_rule (s : ESS_LFP_48S) (dlc : Nat) (d : Payload) (h : 6 ≤ dlc) :
    updateFromFrame s 0x18130281 dlc d =
      some ({ s with
              cellCount := d.at 0
              tempCount := d.at 1
              minCellIndex := d.at 2
              maxCellIndex := d.at 3
              submoduleCount := d.at 4
              moduleIndex := d.at 5 }, true) := by
  simp [updateFromFrame, in_range, h]

/-- The temperature/delta rule alone fires on `0x18130381` with `dlc >= 8`. -/
theorem delta_rule (s : ESS_LFP_48S) (dlc : Nat) (d : Payload) (h : 8 ≤ dlc) :
    updateFromFrame s 0x18130381 dlc d =
      some ({ s with
              avgTempC := fmul (u16be d 0 (by decide)) 0.01
              minTempC := fmul (u16be d 2 (by decide)) 0.01
              cellDeltaV := fmul (u16be d 4 (by decide)) 0.001 }, true) := by
  simp [updateFromFrame, in_range, h]

/-- The reserved ID is matched with any length and writes nothing. -/
theorem reserved_rule (s : ESS_LFP_48S) (dlc : Nat) (d : Payload) :
    updateFromFrame s 0x18130481 dlc d = some (s, true) := by
  simp [updateFromFrame, in_range]

/-- When no guard holds nothing is written and the result is `false`. -/
theorem no_rule (s : ESS_LFP_48S) (id dlc : Nat) (d : Payload)
    (g1 : ¬ ((0x18110181 ≤ id ∧ id ≤ 0x18110C81) ∧ dlc = 8))
    (g2 : ¬ ((0x18120181 ≤ id ∧ id ≤ 0x18120681) ∧ dlc = 8))
    (g3 : ¬ (id = 0x18130181 ∧ 8 ≤ dlc))
    (g4 : ¬ (id = 0x18130281 ∧ 6 ≤ dlc))
    (g5 : ¬ (id = 0x18130381 ∧ 8 ≤ dlc))
    (g6 : id ≠ 0x18130481) :
    updateFromFrame s id dlc d = some (s, false) := by
  have c1 : (in_range id 0x18110181 0x18110C81 && dlc == 8) = false := by
    rw [← Bool.not_eq_true, Bool.and_eq_true, in_range_iff, beq_iff_eq]; exact g1
  have c2 : (in_range id 0x18120181 0x18120681 && dlc == 8) = false := by
    rw [← Bool.not_eq_true, Bool.and_eq_true, in_range_iff, beq_iff_eq]; exact g2
  have c3 : (id == 0x18130181 && decide (dlc ≥ 8)) = false := by
    rw [← Bool.not_eq_true, Bool.and_eq_true, beq_iff_eq, decide_eq_true_eq]; exact g3
  have c4 : (id == 0x18130281 && decide (dlc ≥ 6)) = false := by
    rw [← Bool.not_eq_true, Bool.and_eq_true, beq_iff_eq, decide_eq_true_eq]; exact g4
  have c5 : (id == 0x18130381 && decide (dlc ≥ 8)) = false := by
    rw [← Bool.not_eq_true, Bool.and_eq_true, beq_iff_eq, decide_eq_true_eq]; exact g5
  have c6 : (id == 0x18130481) = false := by
    rw [← Bool.not_eq_true, beq_iff_eq]; exact g6
  simp only [updateFromFrame, c1, c2, c3, c4, c5, c6, Bool.false_eq_true, ↓reduceIte, pure_bind]
  rfl

theorem quad_eq (d : Payload) (scale : ℚ) (j : Fin 4) :
    quad d scale j =
      some (((256 * (d.at ⟨2 * j.val, by omega⟩).val +
        (d.at ⟨2 * j.val + 1, by omega⟩).val : ℕ) : ℚ) * scale) := by
  unfold quad fmul
  rw [u16be_eq]

theorem foldl_update_nan {n : Nat} (l : List (Fin n)) (a : Fin n → FloatVal) (c : Fin n) :
    (l.foldl (fun acc i => Function.update acc i NAN) a) c = if c ∈ l then NAN else a c := by
  induction l generalizing a with
  | nil => simp
  | cons x l ih =>
    rw [List.foldl_cons, ih]
    by_cases h : c ∈ l
    · simp [h]
    · by_cases e : c = x
      · subst e; simp
      · simp [h, e]

theorem fillNaN_apply {n : Nat} (a : Fin n → FloatVal) (c : Fin n) : fillNaN a c = NAN := by
  unfold fillNaN
  rw [foldl_update_nan, if_pos (List.mem_finRange c)]

theorem fillNaN_eq {n : Nat} (a : Fin n → FloatVal) : fillNaN a = fun _ => NAN :=
  funext (fillNaN_apply a)

theorem blockWrite_hit {n : Nat} (a : Fin n → FloatVal) (k : Nat) (v : Fin 4 → FloatVal)
    (j : Fin 4) (h : 4 * k + j.val < n) : blockWrite a k v ⟨4 * k + j.val, h⟩ = v j := by
  have e1 : (4 * k + j.val) / 4 = k := by omega
  have e2 : (⟨(4 * k + j.val) % 4, Nat.mod_lt _ (by decide)⟩ : Fin 4) = j :=
    Fin.ext (by simp only []; omega)
  simp only [blockWrite, e1, e2, if_true]

theorem isnan_quad (d : Payload) (scale : ℚ) (j : Fin 4) : isnan (quad d scale j) = false := rfl

theorem isnan_NAN : isnan NAN = true := rfl

/-! ## The block rules (C1, C2, C3) -/

/-- C1: for every prior object `s`, every `k` in `0..11` and every payload `d`,
`updateFromFrame(0x18110181 + k*0x100, 8, d)` returns `true` and afterwards
`_cellV[4k+j] = (256*d[2j] + d[2j+1]) * 0.001` for `j` in `0..3`; started from a
freshly reset object, exactly the entries `4k .. 4k+3` are set (not NaN) and
the other 44 are still NaN. -/
theorem cell_frame_decodes (s s0 : ESS_LFP_48S) (k : Fin 12) (d : Payload) :
    (∃ s1, updateFromFrame s (0x18110181 + k.val * 0x100) 8 d = some (s1, true) ∧
      ∀ j : Fin 4, s1.cellV ⟨4 * k.val + j.val, by omega⟩ =
        some (((256 * (d.at ⟨2 * j.val, by omega⟩).val +
          (d.at ⟨2 * j.val + 1, by omega⟩).val : ℕ) : ℚ) * 0.001)) ∧
    (∃ r, updateFromFrame (reset s0) (0x18110181 + k.val * 0x100) 8 d = some (r, true) ∧
      ∀ c : Fin 48, (isnan (r.cellV c) = false ↔ (4 * k.val ≤ c.val ∧ c.val < 4 * k.val + 4))) := by
  have hk := k.isLt
  have hidx : (0x18110181 + k.val * 0x100 - 0x18110181) / 256 = k.val := by omega
  constructor
  · refine ⟨_, cell_rule s _ d (by omega) (by omega), ?_⟩
    intro j
    simp only [hidx]
    rw [blockWrite_hit, quad_eq]
  · refine ⟨_, cell_rule (reset s0) _ d (by omega) (by omega), ?_⟩
    intro c
    simp only [hidx, blockWrite]
    by_cases e : c.val / 4 = k.val
    · rw [if_pos e, isnan_quad]
      constructor
      · intro _; omega
      · intro _; rfl
    · rw [if_neg e]
      simp only [reset, fillNaN_apply, isnan_NAN]
      constructor
      · intro h; cases h
      · intro h; omega

/-- C2: for every prior object `s`, every `k` in `0..5` and every payload `d`,
`updateFromFrame(0x18120181 + k*0x100, 8, d)` returns `true` and afterwards
`_tempC[4k+j] = (256*d[2j] + d[2j+1]) * 0.01` for `j` in `0..3`; started from a
freshly reset object, exactly the entries `4k .. 4k+3` are set (not NaN) and
the other 20 are still NaN. -/
theorem temp_frame_decodes (s s0 : ESS_LFP_48S) (k : Fin 6) (d : Payload) :
    (∃ s1, updateFromFrame s (0x18120181 + k.val * 0x100) 8 d = some (s1, true) ∧
      ∀ j : Fin 4, s1.tempC ⟨4 * k.val + j.val, by omega⟩ =
        some (((256 * (d.at ⟨2 * j.val, by omega⟩).val +
          (d.at ⟨2 * j.val + 1, by omega⟩).val : ℕ) : ℚ) * 0.01)) ∧
    (∃ r, updateFromFrame (reset s0) (0x18120181 + k.val * 0x100) 8 d = some (r, true) ∧
      ∀ c : Fin 24, (isnan (r.tempC c) = false ↔ (4 * k.val ≤ c.val ∧ c.val < 4 * k.val + 4))) := by
  have hk := k.isLt
  have hidx : (0x18120181 + k.val * 0x100 - 0x18120181) / 256 = k.val := by omega
  constructor
  · refine ⟨_, temp_rule s _ d (by omega) (by omega), ?_⟩
    intro j
    simp only [hidx]
    rw [blockWrite_hit, quad_eq]
  · refine ⟨_, temp_rule (reset s0) _ d (by omega) (by omega), ?_⟩
    intro c
    simp only [hidx, blockWrite]
    by_cases e : c.val / 4 = k.val
    · rw [if_pos e, isnan_quad]
      constructor
      · intro _; omega
      · intro _; rfl
    · rw [if_neg e]
      simp only [reset, fillNaN_apply, isnan_NAN]
      constructor
      · intro h; cases h
      · intro h; omega

theorem feed_cell_frames (d : Fin 12 → Payload) (ks : List (Fin 12)) (s : ESS_LFP_48S) :
    ∃ s1, feed s (ks.map (cellFrame d)) = some (s1, List.replicate ks.length true) ∧
      ∀ c : Fin 48, s1.cellV c =
        if (⟨c.val / 4, by omega⟩ : Fin 12) ∈ ks then
          quad (d ⟨c.val / 4, by omega⟩) 0.001 ⟨c.val % 4, Nat.mod_lt _ (by decide)⟩
        else s.cellV c := by
  induction ks generalizing s with
  | nil => exact ⟨s, rfl, fun c => by simp⟩
  | cons k ks ih =>
    have hk := k.isLt
    have hidx : (0x18110181 + k.val * 0x100 - 0x18110181) / 256 = k.val := by omega
    have step := cell_rule s (0x18110181 + k.val * 0x100) (d k) (by omega) (by omega)
    rw [hidx] at step
    obtain ⟨s2, h2, hc⟩ := ih { s with cellV := blockWrite s.cellV k.val (quad (d k) 0.001) }
    refine ⟨s2, ?_, ?_⟩
    · have step2 : updateFromFrame s (cellFrame d k).id (cellFrame d k).dlc (cellFrame d k).data =
          some ({ s with cellV := blockWrite s.cellV k.val (quad (d k) 0.001) }, true) := step
      simp only [List.map_cons, feed, step2, h2, List.length_cons, List.replicate_succ]
    · intro c
      rw [hc c]
      by_cases hm : (⟨c.val / 4, by omega⟩ : Fin 12) ∈ ks
      · simp [hm]
      · by_cases e : c.val / 4 = k.val
        · have e2 : (⟨c.val / 4, by omega⟩ : Fin 12) = k := Fin.ext e
          simp [hm, e2, blockWrite, e]
        · have e2 : (⟨c.val / 4, by omega⟩ : Fin 12) ≠ k := fun h => e (congrArg Fin.val h)
          simp [hm, e2, blockWrite, e]

/-- C3: for every starting object, every family of payloads `d 0 .. d 11` and
every permutation `p` of `0..11`, feeding the twelve cell frames in the order
`p 0, p 1, .., p 11` makes every call return `true` and leaves every cell `c`
set, with `_cellV[c] = (256*d_(c/4)[2*(c%4)] + d_(c/4)[2*(c%4)+1]) * 0.001`. -/
theorem twelve_frames_any_order (s : ESS_LFP_48S) (d : Fin 12 → Payload)
    (p : Equiv.Perm (Fin 12)) :
    ∃ s1, feed s ((List.finRange 12).map fun i => cellFrame d (p i)) =
        some (s1, List.replicate 12 true) ∧
      ∀ c : Fin 48, isnan (s1.cellV c) = false ∧
        s1.cellV c =
          some (((256 * ((d ⟨c.val / 4, by omega⟩).at ⟨2 * (c.val % 4), by omega⟩).val +
            ((d ⟨c.val / 4, by omega⟩).at ⟨2 * (c.val % 4) + 1, by omega⟩).val : ℕ) : ℚ)
              * 0.001) := by
  obtain ⟨s1, h1, hc⟩ := feed_cell_frames d ((List.finRange 12).map p) s
  rw [List.map_map] at h1
  simp only [List.length_map, List.length_finRange] at h1
  refine ⟨s1, h1, ?_⟩
  intro c
  have hm : (⟨c.val / 4, by omega⟩ : Fin 12) ∈ (List.finRange 12).map p := by
    rw [List.mem_map]
    exact ⟨p.symm ⟨c.val / 4, by omega⟩, List.mem_finRange _, by simp⟩
  have hv := hc c
  rw [if_pos hm, quad_eq] at hv
  rw [hv]
  exact ⟨rfl, rfl⟩

/-! ## The summary rules (C4 – C7) -/

theorem u16be_packBytes :
    u16be packBytes 0 (by decide) = 3100 ∧ u16be packBytes 2 (by decide) = 3000 ∧
      u16be packBytes 6 (by decide) = 300 := by
  refine ⟨?_, ?_, ?_⟩ <;> rw [u16be_eq] <;> rfl

/-- C4, as stated, fails: on the payload `0C 1C 0B B8 34 33 01 2C` the decoded
pack voltage is not `29.6` (bytes 6..7 are `0x012C = 300`, so it is `30.0`). -/
theorem pack_example_refuted :
    ¬ ∃ s1, updateFromFrame dirty 0x18130181 8 packBytes = some (s1, true) ∧
        s1.maxCellV = some 3.100 ∧ s1.minCellV = some 3.000 ∧
        capacityB1 s1 = 0x34 ∧ capacityB2 s1 = 0x33 ∧ s1.packVoltage = some 29.6 := by
  rintro ⟨s1, h, -, -, -, -, hp⟩
  rw [pack_rule dirty 8 packBytes (by decide)] at h
  simp only [Option.some.injEq, Prod.mk.injEq, and_true] at h
  subst h
  simp only [fmul, u16be_packBytes.2.2, Option.some.injEq] at hp
  norm_num at hp

/-- C4 (amended): decoding id `0x18130181` with length 8 and payload
`0C 1C 0B B8 34 33 01 2C` on any object returns `true` and yields
`maxCellV = 3.100`, `minCellV = 3.000`, capacity bytes `0x34, 0x33` (ASCII
`4`, `3`) and `packVoltage = 30.0`. -/
theorem pack_example_decodes (s : ESS_LFP_48S) :
    ∃ s1, updateFromFrame s 0x18130181 8 packBytes = some (s1, true) ∧
      s1.maxCellV = some 3.100 ∧ s1.minCellV = some 3.000 ∧
      capacityB1 s1 = 0x34 ∧ capacityB2 s1 = 0x33 ∧
      Char.ofNat (capacityB1 s1).val = '4' ∧ Char.ofNat (capacityB2 s1).val = '3' ∧
      s1.packVoltage = some 30.0 := by
  refine ⟨_, pack_rule s 8 packBytes (by decide), ?_, ?_, rfl, rfl, rfl, rfl, ?_⟩
  · simp only [fmul, u16be_packBytes.1]; norm_num
  · simp only [fmul, u16be_packBytes.2.1]; norm_num
  · simp only [fmul, u16be_packBytes.2.2]; norm_num

/-- C5: for every prior object, every `dlc >= 8` and every payload `d`,
`updateFromFrame(0x18130181, dlc, d)` returns `true` and afterwards
`maxCellV = (256*d[0]+d[1])*0.001`, `minCellV = (256*d[2]+d[3])*0.001`,
`capacityB1 = d[4]`, `capacityB2 = d[5]`, `packVoltage = (256*d[6]+d[7])*0.1`. -/
theorem pack_summary_decodes (s : ESS_LFP_48S) (dlc : Nat) (d : Payload) (h : 8 ≤ dlc) :
    ∃ s1, updateFromFrame s 0x18130181 dlc d = some (s1, true) ∧
      s1.maxCellV = some (((256 * (d.at 0).val + (d.at 1).val : ℕ) : ℚ) * 0.001) ∧
      s1.minCellV = some (((256 * (d.at 2).val + (d.at 3).val : ℕ) : ℚ) * 0.001) ∧
      capacityB1 s1 = d.at 4 ∧ capacityB2 s1 = d.at 5 ∧
      s1.packVoltage = some (((256 * (d.at 6).val + (d.at 7).val : ℕ) : ℚ) * 0.1) := by
  refine ⟨_, pack_rule s dlc d h, ?_, ?_, rfl, rfl, ?_⟩ <;>
    · simp only [fmul, u16be_eq]; rfl

/-- Non-vacuity of C5 at `dlc = 8`, a used object and the payload
`0C 1C 0B B8 34 33 01 2C`. -/
theorem pack_summary_decodes_witness :
    8 ≤ 8 ∧ ∃ s1, updateFromFrame dirty 0x18130181 8 packBytes = some (s1, true) ∧
      s1.maxCellV = some (((256 * (packBytes.at 0).val + (packBytes.at 1).val : ℕ) : ℚ) * 0.001) ∧
      s1.minCellV = some (((256 * (packBytes.at 2).val + (packBytes.at 3).val : ℕ) : ℚ) * 0.001) ∧
      capacityB1 s1 = packBytes.at 4 ∧ capacityB2 s1 = packBytes.at 5 ∧
      s1.packVoltage = some (((256 * (packBytes.at 6).val + (packBytes.at 7).val : ℕ) : ℚ) * 0.1) :=
  ⟨by decide, pack_summary_decodes dirty 8 packBytes (by decide)⟩

/-- C6: for every prior object, every `dlc >= 6` and every payload `d`,
`updateFromFrame(0x18130281, dlc, d)` returns `true` and afterwards
`cellCount = d[0]`, `tempCount = d[1]`, `minCellIndex = d[2]`,
`maxCellIndex = d[3]`, `submoduleCount = d[4]`, `moduleIndex = d[5]`; with
`d = [48,24,3,17,4,2,..]` these are `48, 24, 3, 17, 4, 2`. -/
theorem counts_decode (s : ESS_LFP_48S) (dlc : Nat) (d : Payload) (h : 6 ≤ dlc) :
    (∃ s1, updateFromFrame s 0x18130281 dlc d = some (s1, true) ∧
      s1.cellCount = d.at 0 ∧ s1.tempCount = d.at 1 ∧ s1.minCellIndex = d.at 2 ∧
      s1.maxCellIndex = d.at 3 ∧ s1.submoduleCount = d.at 4 ∧ s1.moduleIndex = d.at 5) ∧
    (∀ (b6 b7 : Byte) (rest : List Byte),
      ∃ s2, updateFromFrame s 0x18130281 dlc (metaBytes b6 b7 rest) = some (s2, true) ∧
        s2.cellCount = 48 ∧ s2.tempCount = 24 ∧ s2.minCellIndex = 3 ∧
        s2.maxCellIndex = 17 ∧ s2.submoduleCount = 4 ∧ s2.moduleIndex = 2) :=
  ⟨⟨_, meta_rule s dlc d h, rfl, rfl, rfl, rfl, rfl, rfl⟩,
    fun b6 b7 rest => ⟨_, meta_rule s dlc (metaBytes b6 b7 rest) h, rfl, rfl, rfl, rfl, rfl, rfl⟩⟩

/-- Non-vacuity of C6 at `dlc = 6`, a used object and the payload
`48 24 3 17 4 2 0 0`. -/
theorem counts_decode_witness :
    6 ≤ 6 ∧
    (∃ s1, updateFromFrame dirty 0x18130281 6 (metaBytes 0 0 []) = some (s1, true) ∧
      s1.cellCount = (metaBytes 0 0 []).at 0 ∧ s1.tempCount = (metaBytes 0 0 []).at 1 ∧
      s1.minCellIndex = (metaBytes 0 0 []).at 2 ∧ s1.maxCellIndex = (metaBytes 0 0 []).at 3 ∧
      s1.submoduleCount = (metaBytes 0 0 []).at 4 ∧ s1.moduleIndex = (metaBytes 0 0 []).at 5) ∧
    (∀ (b6 b7 : Byte) (rest : List Byte),
      ∃ s2, updateFromFrame dirty 0x18130281 6 (metaBytes b6 b7 rest) = some (s2, true) ∧
        s2.cellCount = 48 ∧ s2.tempCount = 24 ∧ s2.minCellIndex = 3 ∧
        s2.maxCellIndex = 17 ∧ s2.submoduleCount = 4 ∧ s2.moduleIndex = 2) :=
  ⟨by decide, counts_decode dirty 6 (metaBytes 0 0 []) (by decide)⟩

/-- C7: for every prior object, every `dlc >= 8` and every payload `d`,
`updateFromFrame(0x18130381, dlc, d)` returns `true` and afterwards
`avgTempC = (256*d[0]+d[1])*0.01`, `minTempC = (256*d[2]+d[3])*0.01`,
`cellDeltaV = (256*d[4]+d[5])*0.001`; bytes 6..7 are unused: a payload `d2`
that agrees with `d` on bytes 0..5 gives the same object and result. -/
theorem temp_delta_decodes (s : ESS_LFP_48S) (dlc : Nat) (d d2 : Payload) (h : 8 ≤ dlc)
    (hag : ∀ i : Fin 8, i.val < 6 → d2.at i = d.at i) :
    ∃ s1, updateFromFrame s 0x18130381 dlc d = some (s1, true) ∧
      s1.avgTempC = some (((256 * (d.at 0).val + (d.at 1).val : ℕ) : ℚ) * 0.01) ∧
      s1.minTempC = some (((256 * (d.at 2).val + (d.at 3).val : ℕ) : ℚ) * 0.01) ∧
      s1.cellDeltaV = some (((256 * (d.at 4).val + (d.at 5).val : ℕ) : ℚ) * 0.001) ∧
      updateFromFrame s 0x18130381 dlc d2 = some (s1, true) := by
  refine ⟨_, delta_rule s dlc d h, ?_, ?_, ?_, ?_⟩
  · simp only [fmul, u16be_eq]; rfl
  · simp only [fmul, u16be_eq]; rfl
  · simp only [fmul, u16be_eq]; rfl
  · rw [delta_rule s dlc d2 h]
    have e0 := hag 0 (by decide)
    have e1 := hag 1 (by decide)
    have e2 := hag 2 (by decide)
    have e3 := hag 3 (by decide)
    have e4 := hag 4 (by decide)
    have e5 := hag 5 (by decide)
    have f0 : u16be d2 0 (by decide) = u16be d 0 (by decide) := by
      rw [u16be_eq, u16be_eq, e0]; exact congrArg _ (congrArg Fin.val e1)
    have f2 : u16be d2 2 (by decide) = u16be d 2 (by decide) := by
      rw [u16be_eq, u16be_eq, e2]; exact congrArg _ (congrArg Fin.val e3)
    have f4 : u16be d2 4 (by decide) = u16be d 4 (by decide) := by
      rw [u16be_eq, u16be_eq, e4]; exact congrArg _ (congrArg Fin.val e5)
    rw [f0, f2, f4]

/-- Non-vacuity of C7 at `dlc = 8`, a used object and two payloads that differ
in bytes 6 and 7 only. -/
theorem temp_delta_decodes_witness :
    8 ≤ 8 ∧ (∀ i : Fin 8, i.val < 6 → packBytesAlt.at i = packBytes.at i) ∧
    ∃ s1, updateFromFrame dirty 0x18130381 8 packBytes = some (s1, true) ∧
      s1.avgTempC = some (((256 * (packBytes.at 0).val + (packBytes.at 1).val : ℕ) : ℚ) * 0.01) ∧
      s1.minTempC = some (((256 * (packBytes.at 2).val + (packBytes.at 3).val : ℕ) : ℚ) * 0.01) ∧
      s1.cellDeltaV = some (((256 * (packBytes.at 4).val + (packBytes.at 5).val : ℕ) : ℚ) * 0.001) ∧
      updateFromFrame dirty 0x18130381 8 packBytesAlt = some (s1, true) :=
  ⟨by decide, by decide,
    temp_delta_decodes dirty 8 packBytes packBytesAlt (by decide) (by decide)⟩

/-! ## Matching (C8, C9) and reset (C10) -/

/-- C8: for every object, every `dlc`, every payload and every `id` outside
`[0x18110181, 0x18110C81]` and `[0x18120181, 0x18120681]` that is none of
`0x18130181`, `0x18130281`, `0x18130381`, `0x18130481`, `updateFromFrame`
returns `false` and the object is unchanged. -/
theorem unknown_id_ignored (s : ESS_LFP_48S) (id dlc : Nat) (d : Payload)
    (h1 : ¬ (0x18110181 ≤ id ∧ id ≤ 0x18110C81))
    (h2 : ¬ (0x18120181 ≤ id ∧ id ≤ 0x18120681))
    (h3 : id ≠ 0x18130181) (h4 : id ≠ 0x18130281) (h5 : id ≠ 0x18130381)
    (h6 : id ≠ 0x18130481) :
    updateFromFrame s id dlc d = some (s, false) :=
  no_rule s id dlc d (fun h => h1 h.1) (fun h => h2 h.1) (fun h => h3 h.1) (fun h => h4 h.1)
    (fun h => h5 h.1) h6

/-- Non-vacuity of C8 at the ID `0x12345678` with length 8 on a used object. -/
theorem unknown_id_ignored_witness :
    ¬ (0x18110181 ≤ 0x12345678 ∧ 0x12345678 ≤ 0x18110C81) ∧
    ¬ (0x18120181 ≤ 0x12345678 ∧ 0x12345678 ≤ 0x18120681) ∧
    0x12345678 ≠ 0x18130181 ∧ 0x12345678 ≠ 0x18130281 ∧ 0x12345678 ≠ 0x18130381 ∧
    0x12345678 ≠ 0x18130481 ∧
    updateFromFrame dirty 0x12345678 8 packBytes = some (dirty, false) :=
  ⟨by decide, by decide, by decide, by decide, by decide, by decide,
    unknown_id_ignored dirty 0x12345678 8 packBytes (by decide) (by decide) (by decide)
      (by decide) (by decide) (by decide)⟩

theorem matched_flag (s : ESS_LFP_48S) (id dlc : Nat) (d : Payload) :
    (updateFromFrame s id dlc d).map Prod.snd =
      some (decide
        (((0x18110181 ≤ id ∧ id ≤ 0x18110C81) ∧ dlc = 8) ∨
         ((0x18120181 ≤ id ∧ id ≤ 0x18120681) ∧ dlc = 8) ∨
         (id = 0x18130181 ∧ 8 ≤ dlc) ∨ (id = 0x18130281 ∧ 6 ≤ dlc) ∨
         (id = 0x18130381 ∧ 8 ≤ dlc) ∨ id = 0x18130481)) := by
  by_cases c1 : (0x18110181 ≤ id ∧ id ≤ 0x18110C81) ∧ dlc = 8
  · obtain ⟨⟨a, b⟩, rfl⟩ := c1
    rw [cell_rule s id d a b, decide_eq_true (Or.inl ⟨⟨a, b⟩, rfl⟩)]; rfl
  by_cases c2 : (0x18120181 ≤ id ∧ id ≤ 0x18120681) ∧ dlc = 8
  · obtain ⟨⟨a, b⟩, rfl⟩ := c2
    rw [temp_rule s id d a b, decide_eq_true (Or.inr (Or.inl ⟨⟨a, b⟩, rfl⟩))]; rfl
  by_cases c3 : id = 0x18130181 ∧ 8 ≤ dlc
  · obtain ⟨rfl, b⟩ := c3
    rw [pack_rule s dlc d b, decide_eq_true (Or.inr (Or.inr (Or.inl ⟨rfl, b⟩)))]; rfl
  by_cases c4 : id = 0x18130281 ∧ 6 ≤ dlc
  · obtain ⟨rfl, b⟩ := c4
    rw [meta_rule s dlc d b, decide_eq_true (Or.inr (Or.inr (Or.inr (Or.inl ⟨rfl, b⟩))))]; rfl
  by_cases c5 : id = 0x18130381 ∧ 8 ≤ dlc
  · obtain ⟨rfl, b⟩ := c5
    rw [delta_rule s dlc d b,
      decide_eq_true (Or.inr (Or.inr (Or.inr (Or.inr (Or.inl ⟨rfl, b⟩)))))]; rfl
  by_cases c6 : id = 0x18130481
  · subst c6
    rw [reserved_rule s dlc d,
      decide_eq_true (Or.inr (Or.inr (Or.inr (Or.inr (Or.inr rfl)))))]; rfl
  rw [no_rule s id dlc d c1 c2 c3 c4 c5 c6, decide_eq_false]
  · rfl
  · rintro (h | h | h | h | h | h)
    exacts [c1 h, c2 h, c3 h, c4 h, c5 h, c6 h]

/-- C9: `updateFromFrame(id, dlc, d)` always returns, and it returns `true` if
and only if one of the six rules fires on `(id, dlc)`; so a recognised ID with
a length too short for its rule gives `false`, and the returned flag is the
same for every payload and every prior object. -/
theorem matched_iff_rule_fires (s : ESS_LFP_48S) (id dlc : Nat) (d : Payload) :
    (∃ s1 m, updateFromFrame s id dlc d = some (s1, m) ∧
      (m = true ↔
        (((0x18110181 ≤ id ∧ id ≤ 0x18110C81) ∧ dlc = 8) ∨
         ((0x18120181 ≤ id ∧ id ≤ 0x18120681) ∧ dlc = 8) ∨
         (id = 0x18130181 ∧ 8 ≤ dlc) ∨ (id = 0x18130281 ∧ 6 ≤ dlc) ∨
         (id = 0x18130381 ∧ 8 ≤ dlc) ∨ id = 0x18130481))) ∧
    (∀ (s2 : ESS_LFP_48S) (d2 : Payload),
      (updateFromFrame s2 id dlc d2).map Prod.snd = (updateFromFrame s id dlc d).map Prod.snd) ∧
    ((0x18110181 ≤ id ∧ id ≤ 0x18110C81) ∧ dlc ≠ 8 →
      (updateFromFrame s id dlc d).map Prod.snd = some false) ∧
    ((0x18120181 ≤ id ∧ id ≤ 0x18120681) ∧ dlc ≠ 8 →
      (updateFromFrame s id dlc d).map Prod.snd = some false) ∧
    ((id = 0x18130181 ∨ id = 0x18130381) ∧ dlc < 8 →
      (updateFromFrame s id dlc d).map Prod.snd = some false) ∧
    (id = 0x18130281 ∧ dlc < 6 →
      (updateFromFrame s id dlc d).map Prod.snd = some false) := by
  have hm := matched_flag s id dlc d
  refine ⟨?_, ?_, ?_, ?_, ?_, ?_⟩
  · cases hu : updateFromFrame s id dlc d with
    | none => rw [hu] at hm; cases hm
    | some r =>
      obtain ⟨s1, m⟩ := r
      rw [hu] at hm
      simp only [Option.map_some', Option.some.injEq] at hm
      exact ⟨s1, m, rfl, by rw [hm, decide_eq_true_eq]⟩
  · intro s2 d2
    rw [hm, matched_flag s2 id dlc d2]
  · rintro ⟨hr, hd⟩
    rw [hm, decide_eq_false]
    omega
  · rintro ⟨hr, hd⟩
    rw [hm, decide_eq_false]
    omega
  · rintro ⟨hr, hd⟩
    rw [hm, decide_eq_false]
    omega
  · rintro ⟨hr, hd⟩
    rw [hm, decide_eq_false]
    omega

/-- Non-vacuity of C9: the pack-summary ID with the too-short length 7 is
reported as not matched. -/
theorem matched_iff_rule_fires_witness :
    ((0x18130181 = 0x18130181 ∨ 0x18130181 = 0x18130381) ∧ 7 < 8) ∧
    (updateFromFrame dirty 0x18130181 7 packBytes).map Prod.snd = some false :=
  ⟨⟨Or.inl rfl, by decide⟩,
    (matched_iff_rule_fires dirty 0x18130181 7 packBytes).2.2.2.2.1 ⟨Or.inl rfl, by decide⟩⟩

/-- C10: for every object `s`, `reset(s)` equals the freshly constructed object
(whatever the arrays held before construction): all 48 cell voltages, all 24
temperatures and the six scalar floats are NaN, the six integer fields are 0
and both capacity bytes are 0. -/
theorem reset_gives_fresh (s : ESS_LFP_48S) (cells0 : Fin 48 → FloatVal)
    (temps0 : Fin 24 → FloatVal) :
    reset s = construct cells0 temps0 ∧
    (∀ c : Fin 48, isnan ((reset s).cellV c) = true) ∧
    (∀ t : Fin 24, isnan ((reset s).tempC t) = true) ∧
    isnan (reset s).packVoltage = true ∧ isnan (reset s).maxCellV = true ∧
    isnan (reset s).minCellV = true ∧ isnan (reset s).cellDeltaV = true ∧
    isnan (reset s).avgTempC = true ∧ isnan (reset s).minTempC = true ∧
    (reset s).cellCount = 0 ∧ (reset s).tempCount = 0 ∧ (reset s).minCellIndex = 0 ∧
    (reset s).maxCellIndex = 0 ∧ (reset s).submoduleCount = 0 ∧ (reset s).moduleIndex = 0 ∧
    capacityB1 (reset s) = 0 ∧ capacityB2 (reset s) = 0 := by
  refine ⟨?_, ?_, ?_, rfl, rfl, rfl, rfl, rfl, rfl, rfl, rfl, rfl, rfl, rfl, rfl, rfl, rfl⟩
  · simp only [construct, reset, fillNaN_eq]
  · intro c
    simp only [reset, fillNaN_apply, isnan_NAN]
  · intro t
    simp only [reset, fillNaN_apply, isnan_NAN]

/-! ## A closed form of `updateFromFrame` -/

theorem update_eq (s : ESS_LFP_48S) (id dlc : Nat) (d : Payload) :
    updateFromFrame s id dlc d = some (effect s id dlc d, fires id dlc) := by
  unfold effect fires
  by_cases c1 : (0x18110181 ≤ id ∧ id ≤ 0x18110C81) ∧ dlc = 8
  · rw [if_pos c1, decide_eq_true (Or.inl c1)]
    obtain ⟨⟨a, b⟩, rfl⟩ := c1
    exact cell_rule s id d a b
  rw [if_neg c1]
  by_cases c2 : (0x18120181 ≤ id ∧ id ≤ 0x18120681) ∧ dlc = 8
  · rw [if_pos c2, decide_eq_true (Or.inr (Or.inl c2))]
    obtain ⟨⟨a, b⟩, rfl⟩ := c2
    exact temp_rule s id d a b
  rw [if_neg c2]
  by_cases c3 : id = 0x18130181 ∧ 8 ≤ dlc
  · rw [if_pos c3, decide_eq_true (Or.inr (Or.inr (Or.inl c3)))]
    obtain ⟨rfl, b⟩ := c3
    exact pack_rule s dlc d b
  rw [if_neg c3]
  by_cases c4 : id = 0x18130281 ∧ 6 ≤ dlc
  · rw [if_pos c4, decide_eq_true (Or.inr (Or.inr (Or.inr (Or.inl c4))))]
    obtain ⟨rfl, b⟩ := c4
    exact meta_rule s dlc d b
  rw [if_neg c4]
  by_cases c5 : id = 0x18130381 ∧ 8 ≤ dlc
  · rw [if_pos c5, decide_eq_true (Or.inr (Or.inr (Or.inr (Or.inr (Or.inl c5)))))]
    obtain ⟨rfl, b⟩ := c5
    exact delta_rule s dlc d b
  rw [if_neg c5]
  by_cases c6 : id = 0x18130481
  · rw [decide_eq_true (Or.inr (Or.inr (Or.inr (Or.inr (Or.inr c6)))))]
    subst c6
    exact reserved_rule s dlc d
  rw [no_rule s id dlc d c1 c2 c3 c4 c5 c6, decide_eq_false]
  rintro (h | h | h | h | h | h)
  exacts [c1 h, c2 h, c3 h, c4 h, c5 h, c6 h]

theorem blockWrite_idem {n : Nat} (a : Fin n → FloatVal) (k : Nat) (v : Fin 4 → FloatVal) :
    blockWrite (blockWrite a k v) k v = blockWrite a k v := by
  funext c
  simp only [blockWrite]
  split <;> rfl

theorem blockWrite_comm {n : Nat} (a : Fin n → FloatVal) (k k2 : Nat) (v v2 : Fin 4 → FloatVal)
    (h : k ≠ k2) :
    blockWrite (blockWrite a k v) k2 v2 = blockWrite (blockWrite a k2 v2) k v := by
  funext c
  simp only [blockWrite]
  by_cases e : c.val / 4 = k
  · have e2 : c.val / 4 ≠ k2 := fun h2 => h (e.symm.trans h2)
    rw [if_neg e2, if_pos e, if_pos e]
  · rw [if_neg e, if_neg e]

theorem effect_idem (s : ESS_LFP_48S) (id dlc : Nat) (d : Payload) :
    effect (effect s id dlc d) id dlc d = effect s id dlc d := by
  unfold effect
  split_ifs
  · simp only [blockWrite_idem]
  · simp only [blockWrite_idem]
  · rfl
  · rfl
  · rfl
  · rfl

/-- C13: decoding a frame twice gives the same object and the same returned
flag as decoding it once: with `(s1, m) = updateFromFrame(s, f)`, the second
call `updateFromFrame(s1, f)` returns `(s1, m)` again. -/
theorem decode_twice_same (s : ESS_LFP_48S) (id dlc : Nat) (d : Payload) :
    ∃ s1 m, updateFromFrame s id dlc d = some (s1, m) ∧
      updateFromFrame s1 id dlc d = some (s1, m) := by
  refine ⟨effect s id dlc d, fires id dlc, update_eq s id dlc d, ?_⟩
  rw [update_eq, effect_idem]

/-! ## Frame effects (C15, C16) -/

/-- C15: each field is written only by the rule that owns it.  After
`updateFromFrame(id, dlc, d)` a cell entry differs from before only if the cell
rule fires and the entry is one of `4k .. 4k+3` for its frame index
`k = (id - 0x18110181) / 0x100`; likewise for temperatures; `maxCellV`,
`minCellV`, the capacity bytes and `packVoltage` change only on `0x18130181`
with `dlc >= 8`; the six integers only on `0x18130281` with `dlc >= 6`;
`avgTempC`, `minTempC`, `cellDeltaV` only on `0x18130381` with `dlc >= 8`; and
`0x18130481` leaves the object unchanged. -/
theorem field_written_by_owner_only (s : ESS_LFP_48S) (id dlc : Nat) (d : Payload) :
    ∃ s1 m, updateFromFrame s id dlc d = some (s1, m) ∧
      (∀ c : Fin 48, s1.cellV c ≠ s.cellV c →
        ((0x18110181 ≤ id ∧ id ≤ 0x18110C81) ∧ dlc = 8) ∧
          4 * ((id - 0x18110181) / 0x100) ≤ c.val ∧
          c.val ≤ 4 * ((id - 0x18110181) / 0x100) + 3) ∧
      (∀ t : Fin 24, s1.tempC t ≠ s.tempC t →
        ((0x18120181 ≤ id ∧ id ≤ 0x18120681) ∧ dlc = 8) ∧
          4 * ((id - 0x18120181) / 0x100) ≤ t.val ∧
          t.val ≤ 4 * ((id - 0x18120181) / 0x100) + 3) ∧
      ((s1.maxCellV ≠ s.maxCellV ∨ s1.minCellV ≠ s.minCellV ∨
          s1.capacityChar1 ≠ s.capacityChar1 ∨ s1.capacityChar2 ≠ s.capacityChar2 ∨
          s1.packVoltage ≠ s.packVoltage) → id = 0x18130181 ∧ 8 ≤ dlc) ∧
      ((s1.cellCount ≠ s.cellCount ∨ s1.tempCount ≠ s.tempCount ∨
          s1.minCellIndex ≠ s.minCellIndex ∨ s1.maxCellIndex ≠ s.maxCellIndex ∨
          s1.submoduleCount ≠ s.submoduleCount ∨ s1.moduleIndex ≠ s.moduleIndex) →
        id = 0x18130281 ∧ 6 ≤ dlc) ∧
      ((s1.avgTempC ≠ s.avgTempC ∨ s1.minTempC ≠ s.minTempC ∨
          s1.cellDeltaV ≠ s.cellDeltaV) → id = 0x18130381 ∧ 8 ≤ dlc) ∧
      (id = 0x18130481 → s1 = s) := by
  refine ⟨effect s id dlc d, fires id dlc, update_eq s id dlc d, ?_, ?_, ?_, ?_, ?_, ?_⟩
  · intro c hc
    unfold effect at hc
    split_ifs at hc with h1
    · refine ⟨h1, ?_⟩
      simp only [blockWrite] at hc
      split_ifs at hc with e
      · omega
      · exact absurd rfl hc
    all_goals exact absurd rfl hc
  · intro t ht
    unfold effect at ht
    split_ifs at ht with h1 h2
    · exact absurd rfl ht
    · refine ⟨h2, ?_⟩
      simp only [blockWrite] at ht
      split_ifs at ht with e
      · omega
      · exact absurd rfl ht
    all_goals exact absurd rfl ht
  · intro h
    unfold effect at h
    split_ifs at h with h1 h2 h3
    · simp at h
    · simp at h
    · exact h3
    all_goals simp at h
  · intro h
    unfold effect at h
    split_ifs at h with h1 h2 h3 h4
    · simp at h
    · simp at h
    · simp at h
    · exact h4
    all_goals simp at h
  · intro h
    unfold effect at h
    split_ifs at h with h1 h2 h3 h4 h5
    · simp at h
    · simp at h
    · simp at h
    · simp at h
    · exact h5
    all_goals simp at h
  · intro h
    subst h
    simp [effect]

theorem isnan_fmul (raw : Nat) (scale : ℚ) : isnan (fmul raw scale) = false := rfl

theorem effect_keeps_set (s : ESS_LFP_48S) (id dlc : Nat) (d : Payload) :
    (∀ c : Fin 48, isnan (s.cellV c) = false → isnan ((effect s id dlc d).cellV c) = false) ∧
    (∀ t : Fin 24, isnan (s.tempC t) = false → isnan ((effect s id dlc d).tempC t) = false) ∧
    (isnan s.packVoltage = false → isnan (effect s id dlc d).packVoltage = false) ∧
    (isnan s.maxCellV = false → isnan (effect s id dlc d).maxCellV = false) ∧
    (isnan s.minCellV = false → isnan (effect s id dlc d).minCellV = false) ∧
    (isnan s.cellDeltaV = false → isnan (effect s id dlc d).cellDeltaV = false) ∧
    (isnan s.avgTempC = false → isnan (effect s id dlc d).avgTempC = false) ∧
    (isnan s.minTempC = false → isnan (effect s id dlc d).minTempC = false) := by
  unfold effect
  split_ifs
  · refine ⟨?_, fun _ h => h, fun h => h, fun h => h, fun h => h,
      fun h => h, fun h => h, fun h => h⟩
    intro c hc
    simp only [blockWrite]
    split_ifs
    · exact isnan_quad _ _ _
    · exact hc
  · refine ⟨fun _ h => h, ?_, fun h => h, fun h => h, fun h => h,
      fun h => h, fun h => h, fun h => h⟩
    intro c hc
    simp only [blockWrite]
    split_ifs
    · exact isnan_quad _ _ _
    · exact hc
  · exact ⟨fun _ h => h, fun _ h => h, fun _ => rfl, fun _ => rfl, fun _ => rfl,
      fun h => h, fun h => h, fun h => h⟩
  · exact ⟨fun _ h => h, fun _ h => h, fun h => h, fun h => h, fun h => h,
      fun h => h, fun h => h, fun h => h⟩
  · exact ⟨fun _ h => h, fun _ h => h, fun h => h, fun h => h, fun h => h,
      fun _ => rfl, fun _ => rfl, fun _ => rfl⟩
  · exact ⟨fun _ h => h, fun _ h => h, fun h => h, fun h => h, fun h => h,
      fun h => h, fun h => h, fun h => h⟩

theorem feed_keeps_set (fs : List Frame) (s : ESS_LFP_48S) :
    ∃ s1 ms, feed s fs = some (s1, ms) ∧
      (∀ c : Fin 48, isnan (s.cellV c) = false → isnan (s1.cellV c) = false) ∧
      (∀ t : Fin 24, isnan (s.tempC t) = false → isnan (s1.tempC t) = false) ∧
      (isnan s.packVoltage = false → isnan s1.packVoltage = false) ∧
      (isnan s.maxCellV = false → isnan s1.maxCellV = false) ∧
      (isnan s.minCellV = false → isnan s1.minCellV = false) ∧
      (isnan s.cellDeltaV = false → isnan s1.cellDeltaV = false) ∧
      (isnan s.avgTempC = false → isnan s1.avgTempC = false) ∧
      (isnan s.minTempC = false → isnan s1.minTempC = false) := by
  induction fs generalizing s with
  | nil => exact ⟨s, [], rfl, fun _ h => h, fun _ h => h, fun h => h, fun h => h, fun h => h,
      fun h => h, fun h => h, fun h => h⟩
  | cons f fs ih =>
    obtain ⟨a1, a2, a3, a4, a5, a6, a7, a8⟩ := effect_keeps_set s f.id f.dlc f.data
    obtain ⟨s2, ms, hf, b1, b2, b3, b4, b5, b6, b7, b8⟩ := ih (effect s f.id f.dlc f.data)
    refine ⟨s2, fires f.id f.dlc :: ms, ?_, fun c h => b1 c (a1 c h), fun t h => b2 t (a2 t h),
      fun h => b3 (a3 h), fun h => b4 (a4 h), fun h => b5 (a5 h), fun h => b6 (a6 h),
      fun h => b7 (a7 h), fun h => b8 (a8 h)⟩
    simp only [feed, update_eq, hf]

/-- C16: the object is only ever filled in.  Every float field or array entry
that is set (not NaN) before `updateFromFrame` is still set after it, and so
after any sequence of `updateFromFrame` calls (without `reset`) every entry
that was set at the start is still set. -/
theorem set_fields_stay_set (s : ESS_LFP_48S) (id dlc : Nat) (d : Payload) (fs : List Frame) :
    (∃ s1 m, updateFromFrame s id dlc d = some (s1, m) ∧
      (∀ c : Fin 48, isnan (s.cellV c) = false → isnan (s1.cellV c) = false) ∧
      (∀ t : Fin 24, isnan (s.tempC t) = false → isnan (s1.tempC t) = false) ∧
      (isnan s.packVoltage = false → isnan s1.packVoltage = false) ∧
      (isnan s.maxCellV = false → isnan s1.maxCellV = false) ∧
      (isnan s.minCellV = false → isnan s1.minCellV = false) ∧
      (isnan s.cellDeltaV = false → isnan s1.cellDeltaV = false) ∧
      (isnan s.avgTempC = false → isnan s1.avgTempC = false) ∧
      (isnan s.minTempC = false → isnan s1.minTempC = false)) ∧
    (∃ s2 ms, feed s fs = some (s2, ms) ∧
      (∀ c : Fin 48, isnan (s.cellV c) = false → isnan (s2.cellV c) = false) ∧
      (∀ t : Fin 24, isnan (s.tempC t) = false → isnan (s2.tempC t) = false) ∧
      (isnan s.packVoltage = false → isnan s2.packVoltage = false) ∧
      (isnan s.maxCellV = false → isnan s2.maxCellV = false) ∧
      (isnan s.minCellV = false → isnan s2.minCellV = false) ∧
      (isnan s.cellDeltaV = false → isnan s2.cellDeltaV = false) ∧
      (isnan s.avgTempC = false → isnan s2.avgTempC = false) ∧
      (isnan s.minTempC = false → isnan s2.minTempC = false)) :=
  ⟨⟨effect s id dlc d, fires id dlc, update_eq s id dlc d, effect_keeps_set s id dlc d⟩,
    feed_keeps_set fs s⟩

/-! ## Accessors (C17), bounds (C19) and dispatch (C20) -/

/-- C17: the accessors are total.  `getCellV(idx)` is the stored `_cellV[idx]`
for `idx` in `0..47` and NaN for every `idx >= 48` (so for `48..255`);
`getTempC(idx)` is the stored `_tempC[idx]` for `idx` in `0..23` and NaN for
every `idx >= 24`. -/
theorem accessors_total (s : ESS_LFP_48S) :
    (∀ c : Fin 48, getCellV s c.val = s.cellV c) ∧
    (∀ n : Nat, getCellV s (48 + n) = NAN) ∧
    (∀ t : Fin 24, getTempC s t.val = s.tempC t) ∧
    (∀ n : Nat, getTempC s (24 + n) = NAN) := by
  refine ⟨?_, ?_, ?_, ?_⟩
  · intro c
    simp only [getCellV, c.isLt, dite_true]
  · intro n
    have h : ¬ 48 + n < 48 := by omega
    simp only [getCellV, h, dite_false]
  · intro t
    simp only [getTempC, t.isLt, dite_true]
  · intro n
    have h : ¬ 24 + n < 24 := by omega
    simp only [getTempC, h, dite_false]

/-- C19: the array writes of the block rules are in bounds.  For every id in
`[0x18110181, 0x18110C81]` the index `idx = (id - 0x18110181) / 0x100` is at most
11 and the four written indices `4*idx + j` are below 48, so each write
succeeds; for every id in `[0x18120181, 0x18120681]` the index is at most 5 and
the written indices are below 24; hence `updateFromFrame` never takes the
out-of-bounds branch, for any input. -/
theorem block_writes_in_bounds (s : ESS_LFP_48S) (id dlc : Nat) (d : Payload) :
    ((0x18110181 ≤ id ∧ id ≤ 0x18110C81) →
      u32sub id 0x18110181 / 0x100 ≤ 11 ∧
      ∀ j : Fin 4, u32add (u32mul (u32sub id 0x18110181 / 0x100) 4) j.val < 48 ∧
        ∀ (a : Fin 48 → FloatVal) (v : FloatVal),
          (writeAt a (u32add (u32mul (u32sub id 0x18110181 / 0x100) 4) j.val) v).isSome = true) ∧
    ((0x18120181 ≤ id ∧ id ≤ 0x18120681) →
      u32sub id 0x18120181 / 0x100 ≤ 5 ∧
      ∀ j : Fin 4, u32add (u32mul (u32sub id 0x18120181 / 0x100) 4) j.val < 24 ∧
        ∀ (a : Fin 24 → FloatVal) (v : FloatVal),
          (writeAt a (u32add (u32mul (u32sub id 0x18120181 / 0x100) 4) j.val) v).isSome = true) ∧
    (updateFromFrame s id dlc d).isSome = true := by
  refine ⟨?_, ?_, ?_⟩
  · rintro ⟨h1, h2⟩
    refine ⟨by unfold u32sub; omega, ?_⟩
    intro j
    have hj := j.isLt
    have hb : u32add (u32mul (u32sub id 0x18110181 / 0x100) 4) j.val < 48 := by
      unfold u32add u32mul u32sub; omega
    exact ⟨hb, fun a v => by rw [writeAt_of_lt a _ v hb]; rfl⟩
  · rintro ⟨h1, h2⟩
    refine ⟨by unfold u32sub; omega, ?_⟩
    intro j
    have hj := j.isLt
    have hb : u32add (u32mul (u32sub id 0x18120181 / 0x100) 4) j.val < 24 := by
      unfold u32add u32mul u32sub; omega
    exact ⟨hb, fun a v => by rw [writeAt_of_lt a _ v hb]; rfl⟩
  · rw [update_eq]; rfl

/-- Non-vacuity of C19 at the last cell-voltage ID `0x18110C81`. -/
theorem block_writes_in_bounds_witness :
    (0x18110181 ≤ 0x18110C81 ∧ 0x18110C81 ≤ 0x18110C81) ∧
    u32sub 0x18110C81 0x18110181 / 0x100 ≤ 11 ∧
    ∀ j : Fin 4, u32add (u32mul (u32sub 0x18110C81 0x18110181 / 0x100) 4) j.val < 48 ∧
      ∀ (a : Fin 48 → FloatVal) (v : FloatVal),
        (writeAt a (u32add (u32mul (u32sub 0x18110C81 0x18110181 / 0x100) 4) j.val) v).isSome
          = true :=
  ⟨by decide,
    (block_writes_in_bounds dirty 0x18110C81 8 packBytes).1 (by decide)⟩

theorem firstMatch_cell (s : ESS_LFP_48S) (id : Nat) (d : Payload)
    (h1 : 0x18110181 ≤ id) (h2 : id ≤ 0x18110C81) :
    updateFirstMatch s id 8 d =
      some ({ s with cellV := blockWrite s.cellV ((id - 0x18110181) / 256) (quad d 0.001) },
        true) := by
  have e1 : in_range id 0x18110181 0x18110C81 = true := (in_range_iff _ _ _).2 ⟨h1, h2⟩
  have hi : 4 * ((id - 0x18110181) / 256) + 3 < 48 := by omega
  have b0 : u32add (u32mul (u32sub id 0x18110181 / 0x100) 4) 0 = 4 * ((id - 0x18110181) / 256) :=
    by unfold u32add u32mul u32sub; omega
  have b1 := block_index id 0x18110181 1 h1 (by omega) (by decide)
  have b2 := block_index id 0x18110181 2 h1 (by omega) (by decide)
  have b3 := block_index id 0x18110181 3 h1 (by omega) (by decide)
  simp only [updateFirstMatch, e1, beq_self_eq_true, Bool.and_self, ↓reduceIte, bind_pure_comp,
    Option.pure_def, Option.bind_eq_bind, Option.map_eq_map, b0, b1, b2, b3]
  generalize (id - 0x18110181) / 256 = idx at hi ⊢
  rw [← four_writes s.cellV idx (quad d 0.001) hi]
  simp only [writeAt_of_lt _ _ _ (show 4 * idx < 48 by omega),
    writeAt_of_lt _ _ _ (show 4 * idx + 1 < 48 by omega),
    writeAt_of_lt _ _ _ (show 4 * idx + 2 < 48 by omega),
    writeAt_of_lt _ _ _ hi, Option.some_bind, Option.map_some']
  rfl

theorem firstMatch_temp (s : ESS_LFP_48S) (id : Nat) (d : Payload)
    (h1 : 0x18120181 ≤ id) (h2 : id ≤ 0x18120681) :
    updateFirstMatch s id 8 d =
      some ({ s with tempC := blockWrite s.tempC ((id - 0x18120181) / 256) (quad d 0.01) },
        true) := by
  have e1 : in_range id 0x18110181 0x18110C81 = false := in_range_false _ _ _ (by omega)
  have e2 : in_range id 0x18120181 0x18120681 = true := (in_range_iff _ _ _).2 ⟨h1, h2⟩
  have hi : 4 * ((id - 0x18120181) / 256) + 3 < 24 := by omega
  have b0 : u32add (u32mul (u32sub id 0x18120181 / 0x100) 4) 0 = 4 * ((id - 0x18120181) / 256) :=
    by unfold u32add u32mul u32sub; omega
  have b1 := block_index id 0x18120181 1 h1 (by omega) (by decide)
  have b2 := block_index id 0x18120181 2 h1 (by omega) (by decide)
  have b3 := block_index id 0x18120181 3 h1 (by omega) (by decide)
  simp only [updateFirstMatch, e1, e2, beq_self_eq_true, Bool.and_self, Bool.false_and,
    Bool.false_eq_true, ↓reduceIte, bind_pure_comp,
    Option.pure_def, Option.bind_eq_bind, Option.map_eq_map, b0, b1, b2, b3]
  generalize (id - 0x18120181) / 256 = idx at hi ⊢
  rw [← four_writes s.tempC idx (quad d 0.01) hi]
  simp only [writeAt_of_lt _ _ _ (show 4 * idx < 24 by omega),
    writeAt_of_lt _ _ _ (show 4 * idx + 1 < 24 by omega),
    writeAt_of_lt _ _ _ (show 4 * idx + 2 < 24 by omega),
    writeAt_of_lt _ _ _ hi, Option.some_bind, Option.map_some']
  rfl

theorem firstMatch_eq (s : ESS_LFP_48S) (id dlc : Nat) (d : Payload) :
    updateFirstMatch s id dlc d = some (effect s id dlc d, fires id dlc) := by
  unfold effect fires
  by_cases c1 : (0x18110181 ≤ id ∧ id ≤ 0x18110C81) ∧ dlc = 8
  · rw [if_pos c1, decide_eq_true (Or.inl c1)]
    obtain ⟨⟨a, b⟩, rfl⟩ := c1
    exact firstMatch_cell s id d a b
  rw [if_neg c1]
  by_cases c2 : (0x18120181 ≤ id ∧ id ≤ 0x18120681) ∧ dlc = 8
  · rw [if_pos c2, decide_eq_true (Or.inr (Or.inl c2))]
    obtain ⟨⟨a, b⟩, rfl⟩ := c2
    exact firstMatch_temp s id d a b
  rw [if_neg c2]
  have g1 : (in_range id 0x18110181 0x18110C81 && dlc == 8) = false := by
    rw [← Bool.not_eq_true, Bool.and_eq_true, in_range_iff, beq_iff_eq]; exact c1
  have g2 : (in_range id 0x18120181 0x18120681 && dlc == 8) = false := by
    rw [← Bool.not_eq_true, Bool.and_eq_true, in_range_iff, beq_iff_eq]; exact c2
  by_cases c3 : id = 0x18130181 ∧ 8 ≤ dlc
  · rw [if_pos c3, decide_eq_true (Or.inr (Or.inr (Or.inl c3)))]
    obtain ⟨rfl, b⟩ := c3
    simp [updateFirstMatch, g1, g2, b]
  rw [if_neg c3]
  have g3 : (id == 0x18130181 && decide (dlc ≥ 8)) = false := by
    rw [← Bool.not_eq_true, Bool.and_eq_true, beq_iff_eq, decide_eq_true_eq]; exact c3
  by_cases c4 : id = 0x18130281 ∧ 6 ≤ dlc
  · rw [if_pos c4, decide_eq_true (Or.inr (Or.inr (Or.inr (Or.inl c4))))]
    obtain ⟨rfl, b⟩ := c4
    simp [updateFirstMatch, g1, g2, g3, b]
  rw [if_neg c4]
  have g4 : (id == 0x18130281 && decide (dlc ≥ 6)) = false := by
    rw [← Bool.not_eq_true, Bool.and_eq_true, beq_iff_eq, decide_eq_true_eq]; exact c4
  by_cases c5 : id = 0x18130381 ∧ 8 ≤ dlc
  · rw [if_pos c5, decide_eq_true (Or.inr (Or.inr (Or.inr (Or.inr (Or.inl c5)))))]
    obtain ⟨rfl, b⟩ := c5
    simp [updateFirstMatch, g1, g2, g3, g4, b]
  rw [if_neg c5]
  have g5 : (id == 0x18130381 && decide (dlc ≥ 8)) = false := by
    rw [← Bool.not_eq_true, Bool.and_eq_true, beq_iff_eq, decide_eq_true_eq]; exact c5
  by_cases c6 : id = 0x18130481
  · rw [decide_eq_true (Or.inr (Or.inr (Or.inr (Or.inr (Or.inr c6)))))]
    subst c6
    simp [updateFirstMatch, g1, g2, g3, g4, g5]
  have g6 : (id == 0x18130481) = false := by
    rw [← Bool.not_eq_true, beq_iff_eq]; exact c6
  rw [decide_eq_false]
  · simp only [updateFirstMatch, g1, g2, g3, g4, g5, g6, Bool.false_eq_true, ↓reduceIte]
    rfl
  · rintro (h | h | h | h | h | h)
    exacts [c1 h, c2 h, c3 h, c4 h, c5 h, c6 h]

/-- C20: the ID predicates of the six rules are pairwise exclusive (no id
satisfies two of them), and the sequence of independent `if` checks of
`updateFromFrame` computes the same object and the same flag as a first-match
`if / else if` dispatch over the same rules, for every object, id, dlc and
payload. -/
theorem independent_ifs_eq_first_match (s : ESS_LFP_48S) (id dlc : Nat) (d : Payload) :
    (¬ ((0x18110181 ≤ id ∧ id ≤ 0x18110C81) ∧ (0x18120181 ≤ id ∧ id ≤ 0x18120681)) ∧
     ¬ ((0x18110181 ≤ id ∧ id ≤ 0x18110C81) ∧ id = 0x18130181) ∧
     ¬ ((0x18110181 ≤ id ∧ id ≤ 0x18110C81) ∧ id = 0x18130281) ∧
     ¬ ((0x18110181 ≤ id ∧ id ≤ 0x18110C81) ∧ id = 0x18130381) ∧
     ¬ ((0x18110181 ≤ id ∧ id ≤ 0x18110C81) ∧ id = 0x18130481) ∧
     ¬ ((0x18120181 ≤ id ∧ id ≤ 0x18120681) ∧ id = 0x18130181) ∧
     ¬ ((0x18120181 ≤ id ∧ id ≤ 0x18120681) ∧ id = 0x18130281) ∧
     ¬ ((0x18120181 ≤ id ∧ id ≤ 0x18120681) ∧ id = 0x18130381) ∧
     ¬ ((0x18120181 ≤ id ∧ id ≤ 0x18120681) ∧ id = 0x18130481) ∧
     ¬ (id = 0x18130181 ∧ id = 0x18130281) ∧ ¬ (id = 0x18130181 ∧ id = 0x18130381) ∧
     ¬ (id = 0x18130181 ∧ id = 0x18130481) ∧ ¬ (id = 0x18130281 ∧ id = 0x18130381) ∧
     ¬ (id = 0x18130281 ∧ id = 0x18130481) ∧ ¬ (id = 0x18130381 ∧ id = 0x18130481)) ∧
    updateFromFrame s id dlc d = updateFirstMatch s id dlc d ∧
    (updateFromFrame s id dlc d).isSome = true := by
  refine ⟨?_, ?_, ?_⟩
  · refine ⟨?_, ?_, ?_, ?_, ?_, ?_, ?_, ?_, ?_, ?_, ?_, ?_, ?_, ?_, ?_⟩ <;> omega
  · rw [update_eq, firstMatch_eq]
  · rw [update_eq]; rfl

/-! ## Off-grid IDs (C14) and order of frames (C12) -/

theorem effect_cell (s : ESS_LFP_48S) (id dlc : Nat) (d : Payload)
    (h : (0x18110181 ≤ id ∧ id ≤ 0x18110C81) ∧ dlc = 8) :
    effect s id dlc d =
      { s with cellV := blockWrite s.cellV ((id - 0x18110181) / 256) (quad d 0.001) } := by
  unfold effect
  rw [if_pos h]

theorem effect_temp (s : ESS_LFP_48S) (id dlc : Nat) (d : Payload)
    (h : (0x18120181 ≤ id ∧ id ≤ 0x18120681) ∧ dlc = 8) :
    effect s id dlc d =
      { s with tempC := blockWrite s.tempC ((id - 0x18120181) / 256) (quad d 0.01) } := by
  unfold effect
  rw [if_neg (by omega), if_pos h]

theorem effect_pack (s : ESS_LFP_48S) (id dlc : Nat) (d : Payload)
    (h : id = 0x18130181 ∧ 8 ≤ dlc) :
    effect s id dlc d =
      { s with
        maxCellV := fmul (u16be d 0 (by decide)) 0.001
        minCellV := fmul (u16be d 2 (by decide)) 0.001
        capacityChar1 := d.at 4
        capacityChar2 := d.at 5
        packVoltage := fmul (u16be d 6 (by decide)) 0.1 } := by
  unfold effect
  rw [if_neg (by omega), if_neg (by omega), if_pos h]

theorem effect_meta (s : ESS_LFP_48S) (id dlc : Nat) (d : Payload)
    (h : id = 0x18130281 ∧ 6 ≤ dlc) :
    effect s id dlc d =
      { s with
        cellCount := d.at 0
        tempCount := d.at 1
        minCellIndex := d.at 2
        maxCellIndex := d.at 3
        submoduleCount := d.at 4
        moduleIndex := d.at 5 } := by
  unfold effect
  rw [if_neg (by omega), if_neg (by omega), if_neg (by omega), if_pos h]

theorem effect_delta (s : ESS_LFP_48S) (id dlc : Nat) (d : Payload)
    (h : id = 0x18130381 ∧ 8 ≤ dlc) :
    effect s id dlc d =
      { s with
        avgTempC := fmul (u16be d 0 (by decide)) 0.01
        minTempC := fmul (u16be d 2 (by decide)) 0.01
        cellDeltaV := fmul (u16be d 4 (by decide)) 0.001 } := by
  unfold effect
  rw [if_neg (by omega), if_neg (by omega), if_neg (by omega), if_neg (by omega), if_pos h]

theorem effect_none (s : ESS_LFP_48S) (id dlc : Nat) (d : Payload)
    (h : ¬ ((0x18110181 ≤ id ∧ id ≤ 0x18110C81) ∧ dlc = 8) ∧
      ¬ ((0x18120181 ≤ id ∧ id ≤ 0x18120681) ∧ dlc = 8) ∧
      ¬ (id = 0x18130181 ∧ 8 ≤ dlc) ∧ ¬ (id = 0x18130281 ∧ 6 ≤ dlc) ∧
      ¬ (id = 0x18130381 ∧ 8 ≤ dlc)) :
    effect s id dlc d = s := by
  unfold effect
  rw [if_neg h.1, if_neg h.2.1, if_neg h.2.2.1, if_neg h.2.2.2.1, if_neg h.2.2.2.2]

theorem rule_cases (id dlc : Nat) :
    ((0x18110181 ≤ id ∧ id ≤ 0x18110C81) ∧ dlc = 8) ∨
    ((0x18120181 ≤ id ∧ id ≤ 0x18120681) ∧ dlc = 8) ∨
    (id = 0x18130181 ∧ 8 ≤ dlc) ∨ (id = 0x18130281 ∧ 6 ≤ dlc) ∨
    (id = 0x18130381 ∧ 8 ≤ dlc) ∨
    (¬ ((0x18110181 ≤ id ∧ id ≤ 0x18110C81) ∧ dlc = 8) ∧
      ¬ ((0x18120181 ≤ id ∧ id ≤ 0x18120681) ∧ dlc = 8) ∧
      ¬ (id = 0x18130181 ∧ 8 ≤ dlc) ∧ ¬ (id = 0x18130281 ∧ 6 ≤ dlc) ∧
      ¬ (id = 0x18130381 ∧ 8 ≤ dlc)) := by
  by_cases c1 : (0x18110181 ≤ id ∧ id ≤ 0x18110C81) ∧ dlc = 8
  · exact Or.inl c1
  by_cases c2 : (0x18120181 ≤ id ∧ id ≤ 0x18120681) ∧ dlc = 8
  · exact Or.inr (Or.inl c2)
  by_cases c3 : id = 0x18130181 ∧ 8 ≤ dlc
  · exact Or.inr (Or.inr (Or.inl c3))
  by_cases c4 : id = 0x18130281 ∧ 6 ≤ dlc
  · exact Or.inr (Or.inr (Or.inr (Or.inl c4)))
  by_cases c5 : id = 0x18130381 ∧ 8 ≤ dlc
  · exact Or.inr (Or.inr (Or.inr (Or.inr (Or.inl c5))))
  exact Or.inr (Or.inr (Or.inr (Or.inr (Or.inr ⟨c1, c2, c3, c4, c5⟩))))

theorem effect_comm (s : ESS_LFP_48S) (A B : Frame) (hne : A.id ≠ B.id)
    (hc : (0x18110181 ≤ A.id ∧ A.id ≤ 0x18110C81) ∧ (0x18110181 ≤ B.id ∧ B.id ≤ 0x18110C81) →
      (A.id - 0x18110181) / 0x100 ≠ (B.id - 0x18110181) / 0x100)
    (ht : (0x18120181 ≤ A.id ∧ A.id ≤ 0x18120681) ∧ (0x18120181 ≤ B.id ∧ B.id ≤ 0x18120681) →
      (A.id - 0x18120181) / 0x100 ≠ (B.id - 0x18120181) / 0x100) :
    effect (effect s A.id A.dlc A.data) B.id B.dlc B.data =
      effect (effect s B.id B.dlc B.data) A.id A.dlc A.data := by
  rcases rule_cases A.id A.dlc with a | a | a | a | a | a <;>
    rcases rule_cases B.id B.dlc with b | b | b | b | b | b
  · simp only [effect_cell _ _ _ _ a, effect_cell _ _ _ _ b,
      blockWrite_comm _ _ _ _ _ (hc ⟨a.1, b.1⟩)]
  · simp only [effect_cell _ _ _ _ a, effect_temp _ _ _ _ b]
  · simp only [effect_cell _ _ _ _ a, effect_pack _ _ _ _ b]
  · simp only [effect_cell _ _ _ _ a, effect_meta _ _ _ _ b]
  · simp only [effect_cell _ _ _ _ a, effect_delta _ _ _ _ b]
  · simp only [effect_cell _ _ _ _ a, effect_none _ _ _ _ b]
  · simp only [effect_temp _ _ _ _ a, effect_cell _ _ _ _ b]
  · simp only [effect_temp _ _ _ _ a, effect_temp _ _ _ _ b,
      blockWrite_comm _ _ _ _ _ (ht ⟨a.1, b.1⟩)]
  · simp only [effect_temp _ _ _ _ a, effect_pack _ _ _ _ b]
  · simp only [effect_temp _ _ _ _ a, effect_meta _ _ _ _ b]
  · simp only [effect_temp _ _ _ _ a, effect_delta _ _ _ _ b]
  · simp only [effect_temp _ _ _ _ a, effect_none _ _ _ _ b]
  · simp only [effect_pack _ _ _ _ a, effect_cell _ _ _ _ b]
  · simp only [effect_pack _ _ _ _ a, effect_temp _ _ _ _ b]
  · exact absurd (a.1.trans b.1.symm) hne
  · simp only [effect_pack _ _ _ _ a, effect_meta _ _ _ _ b]
  · simp only [effect_pack _ _ _ _ a, effect_delta _ _ _ _ b]
  · simp only [effect_pack _ _ _ _ a, effect_none _ _ _ _ b]
  · simp only [effect_meta _ _ _ _ a, effect_cell _ _ _ _ b]
  · simp only [effect_meta _ _ _ _ a, effect_temp _ _ _ _ b]
  · simp only [effect_meta _ _ _ _ a, effect_pack _ _ _ _ b]
  · exact absurd (a.1.trans b.1.symm) hne
  · simp only [effect_meta _ _ _ _ a, effect_delta _ _ _ _ b]
  · simp only [effect_meta _ _ _ _ a, effect_none _ _ _ _ b]
  · simp only [effect_delta _ _ _ _ a, effect_cell _ _ _ _ b]
  · simp only [effect_delta _ _ _ _ a, effect_temp _ _ _ _ b]
  · simp only [effect_delta _ _ _ _ a, effect_pack _ _ _ _ b]
  · simp only [effect_delta _ _ _ _ a, effect_meta _ _ _ _ b]
  · exact absurd (a.1.trans b.1.symm) hne
  · simp only [effect_delta _ _ _ _ a, effect_none _ _ _ _ b]
  · simp only [effect_none _ _ _ _ a, effect_cell _ _ _ _ b]
  · simp only [effect_none _ _ _ _ a, effect_temp _ _ _ _ b]
  · simp only [effect_none _ _ _ _ a, effect_pack _ _ _ _ b]
  · simp only [effect_none _ _ _ _ a, effect_meta _ _ _ _ b]
  · simp only [effect_none _ _ _ _ a, effect_delta _ _ _ _ b]
  · simp only [effect_none _ _ _ _ a, effect_none _ _ _ _ b]

theorem u16be_sample_words :
    u16be packBytes 6 (by decide) = 300 ∧ u16be packBytesAlt 6 (by decide) = 65518 ∧
      u16be packBytes 0 (by decide) = 3100 := by
  refine ⟨?_, ?_, ?_⟩ <;> rw [u16be_eq] <;> rfl

/-- C14 at the off-grid ID `0x18110182`: it lies inside
`[0x18110181, 0x18110C81]` and is none of the 12 IDs `0x18110181 + k*0x100`,
yet `updateFromFrame` with `dlc = 8` returns `true` for it and overwrites cell 0
(from `1` to `3.1`).  The guard tests the range only; the step `0x100` that the
comment above it documents is not checked. -/
theorem off_grid_id_fires :
    (0x18110181 ≤ 0x18110182 ∧ 0x18110182 ≤ 0x18110C81) ∧
    (∀ k : Fin 12, 0x18110182 ≠ 0x18110181 + k.val * 0x100) ∧
    ∃ s1, updateFromFrame dirty 0x18110182 8 packBytes = some (s1, true) ∧
      dirty.cellV 0 = some 1 ∧ s1.cellV 0 = some 3.1 := by
  refine ⟨by decide, by decide, _, cell_rule dirty 0x18110182 packBytes (by decide) (by decide),
    rfl, ?_⟩
  have h := blockWrite_hit dirty.cellV 0 (quad packBytes 0.001) 0 (by decide)
  have e : (0x18110182 - 0x18110181) / 256 = 0 := by decide
  simp only [e]
  refine Eq.trans h ?_
  simp only [quad, fmul, Fin.val_zero, Nat.mul_zero]
  rw [show u16be packBytes ⟨0, by decide⟩ (by decide) = 3100 from u16be_sample_words.2.2]
  norm_num

theorem feed_pair (s : ESS_LFP_48S) (A B : Frame) :
    feed s [A, B] =
      some (effect (effect s A.id A.dlc A.data) B.id B.dlc B.data,
        [fires A.id A.dlc, fires B.id B.dlc]) := by
  simp only [feed, update_eq]

/-- C12 at the frames `0x18110181` and `0x18110182`: the second ID is off the
`0x100` grid but passes the range guard of the cell rule, so both frames write
cells 0..3; with different payloads the later frame wins and the two orders
leave different objects. -/
theorem order_matters_within_block :
    (0x18110181 : Nat) ≠ 0x18110182 ∧
    (feed dirty [⟨0x18110181, 8, packBytes⟩, ⟨0x18110182, 8, packBytesAlt⟩]).map Prod.fst ≠
      (feed dirty [⟨0x18110182, 8, packBytesAlt⟩, ⟨0x18110181, 8, packBytes⟩]).map Prod.fst := by
  refine ⟨by decide, ?_⟩
  rw [feed_pair, feed_pair]
  simp only [Option.map_some', ne_eq, Option.some.injEq]
  intro h
  have h3 := congrArg (fun s => s.cellV 3) h
  simp only [effect_cell _ _ _ _ (show (0x18110181 ≤ 0x18110181 ∧ 0x18110181 ≤ 0x18110C81) ∧
      8 = 8 by decide),
    effect_cell _ _ _ _ (show (0x18110181 ≤ 0x18110182 ∧ 0x18110182 ≤ 0x18110C81) ∧
      8 = 8 by decide)] at h3
  have e1 : (0x18110181 - 0x18110181) / 256 = 0 := by decide
  have e2 : (0x18110182 - 0x18110181) / 256 = 0 := by decide
  simp only [e1, e2] at h3
  have hA := blockWrite_hit (blockWrite dirty.cellV 0 (quad packBytes 0.001)) 0
    (quad packBytesAlt 0.001) 3 (by decide)
  have hB := blockWrite_hit (blockWrite dirty.cellV 0 (quad packBytesAlt 0.001)) 0
    (quad packBytes 0.001) 3 (by decide)
  have h4 : quad packBytesAlt 0.001 3 = quad packBytes 0.001 3 := hA.symm.trans (h3.trans hB)
  simp only [quad, fmul] at h4
  rw [show u16be packBytesAlt ⟨2 * (3 : Fin 4).val, by decide⟩ (by decide) = 65518 from
      u16be_sample_words.2.1,
    show u16be packBytes ⟨2 * (3 : Fin 4).val, by decide⟩ (by decide) = 300 from
      u16be_sample_words.1] at h4
  norm_num at h4

/-! ## The text report (C11, C18) -/

theorem foldl_entries {n : Nat} (g : Fin n → String) (l : List (Fin n)) (out : String) :
    l.foldl (fun out i => (if i.val ≠ 0 then out ++ "," else out) ++ g i) out =
      out ++ concatAll (l.map fun i => (if i.val ≠ 0 then "," else "") ++ g i) := by
  induction l generalizing out with
  | nil => simp [concatAll]
  | cons i l ih =>
    rw [List.foldl_cons, ih]
    simp only [concatAll, List.map_cons, List.foldr_cons]
    by_cases h : i.val ≠ 0
    · rw [if_pos h, if_pos h]
      simp only [String.append_assoc]
    · rw [if_neg h, if_neg h]
      simp only [String.append_assoc, String.empty_append]

theorem appendArray_eq {n : Nat} (fmtFloat : FloatVal → Nat → String) (a : Fin n → FloatVal)
    (decimals : Nat) (out : String) :
    appendArray fmtFloat a decimals out =
      out ++ concatAll ((List.finRange n).map fun i =>
        (if i.val ≠ 0 then "," else "") ++
          (if isnan (a i) then "null" else fmtFloat (a i) decimals)) :=
  foldl_entries _ _ out

set_option maxRecDepth 100000 in
theorem nulls48 :
    concatAll ((List.finRange 48).map fun i => (if i.val ≠ 0 then "," else "") ++ "null") =
    "null,null,null,null,null,null,null,null,null,null,null,null,null,null,null,null,null,null,null,null,null,null,null,null,null,null,null,null,null,null,null,null,null,null,null,null,null,null,null,null,null,null,null,null,null,null,null,null" := by
  rfl

set_option maxRecDepth 100000 in
theorem nulls24 :
    concatAll ((List.finRange 24).map fun i => (if i.val ≠ 0 then "," else "") ++ "null") =
    "null,null,null,null,null,null,null,null,null,null,null,null,null,null,null,null,null,null,null,null,null,null,null,null" := by
  rfl

theorem appendArray_nan {n : Nat} (fmtFloat : FloatVal → Nat → String) (a : Fin n → FloatVal)
    (decimals : Nat) (out : String) (h : ∀ i, a i = NAN) :
    appendArray fmtFloat a decimals out =
      out ++ concatAll ((List.finRange n).map fun i =>
        (if i.val ≠ 0 then "," else "") ++ "null") := by
  rw [appendArray_eq]
  simp only [h, isnan_NAN, if_true]

theorem capacityString_zero (s : ESS_LFP_48S) (h : s.capacityChar1 = 0) :
    capacityString s = "" := by
  simp only [capacityString, cString, h]
  rfl

set_option maxRecDepth 100000 in
/-- C11 at the freshly reset object: the report of `toJson` is the text below.
The 48 cell entries and 24 temperature entries are `null` and the integers
are `0`, but each of the six scalar floats is whatever `String(float, n)`
prints for NaN: `toJson` passes them on without an `isnan` test. -/
theorem report_of_reset_object (fmtFloat : FloatVal → Nat → String) (s : ESS_LFP_48S) :
    toJson fmtFloat (reset s) =
      "\x7b\"packVoltage\":" ++ fmtFloat NAN 1 ++ ",\"maxCellV\":" ++ fmtFloat NAN 3 ++
      ",\"minCellV\":" ++ fmtFloat NAN 3 ++ ",\"cellDeltaV\":" ++ fmtFloat NAN 3 ++
      ",\"avgTempC\":" ++ fmtFloat NAN 2 ++ ",\"minTempC\":" ++ fmtFloat NAN 2 ++
      ",\"cellCount\":0,\"tempCount\":0,\"minCellIndex\":0,\"maxCellIndex\":0,\"submoduleCount\":0,\"moduleIndex\":0,\"capacity\":\"\",\"capacityAscii\":\"\",\"capacityBytesHex\":\"0x00,0x00\",\"capacityBytesDec\":[0,0],\"cells\":[null,null,null,null,null,null,null,null,null,null,null,null,null,null,null,null,null,null,null,null,null,null,null,null,null,null,null,null,null,null,null,null,null,null,null,null,null,null,null,null,null,null,null,null,null,null,null,null],\"temps\":[null,null,null,null,null,null,null,null,null,null,null,null,null,null,null,null,null,null,null,null,null,null,null,null]\x7d" := by
  have hc : capacityString (reset s) = "" := capacityString_zero _ rfl
  have h48 := fun out => appendArray_nan fmtFloat (reset s).cellV 3 out
    (fun i => fillNaN_apply s.cellV i)
  have h24 := fun out => appendArray_nan fmtFloat (reset s).tempC 2 out
    (fun i => fillNaN_apply s.tempC i)
  simp only [toJson, hc, h48, h24, nulls48, nulls24]
  simp only [reset]
  apply String.ext
  simp only [String.data_append, List.append_assoc]
  rfl

theorem quoteBytes_values :
    fmul (u16be quoteBytes 0 (by decide)) 0.001 = some 3.1 ∧
    fmul (u16be quoteBytes 2 (by decide)) 0.001 = some 3 ∧
    fmul (u16be quoteBytes 6 (by decide)) 0.1 = some 30 := by
  have e0 : u16be quoteBytes 0 (by decide) = 3100 := by rw [u16be_eq]; rfl
  have e2 : u16be quoteBytes 2 (by decide) = 3000 := by rw [u16be_eq]; rfl
  have e6 : u16be quoteBytes 6 (by decide) = 300 := by rw [u16be_eq]; rfl
  simp only [fmul, e0, e2, e6]
  norm_num

set_option maxRecDepth 100000 in
/-- C18 at a reachable object with a double quote in the capacity tag: after
`reset` and the pack-summary frame `0C 1C 0B B8 22 41 01 2C`, the report of
`toJson` is the text below.  The capacity bytes are copied into the string
values unescaped (`"capacity":""A"`), and the three scalars no frame has set
are printed by `String(float, n)` as NaN text. -/
theorem report_with_quote_in_capacity (fmtFloat : FloatVal → Nat → String) (s : ESS_LFP_48S) :
    ∃ s1, updateFromFrame (reset s) 0x18130181 8 quoteBytes = some (s1, true) ∧
      capacityString s1 = "\"A" ∧
      toJson fmtFloat s1 =
        "\x7b\"packVoltage\":" ++ fmtFloat (some 30) 1 ++ ",\"maxCellV\":" ++
        fmtFloat (some 3.1) 3 ++ ",\"minCellV\":" ++ fmtFloat (some 3) 3 ++
        ",\"cellDeltaV\":" ++ fmtFloat NAN 3 ++
        ",\"avgTempC\":" ++ fmtFloat NAN 2 ++ ",\"minTempC\":" ++ fmtFloat NAN 2 ++
        ",\"cellCount\":0,\"tempCount\":0,\"minCellIndex\":0,\"maxCellIndex\":0,\"submoduleCount\":0,\"moduleIndex\":0,\"capacity\":\"\"A\",\"capacityAscii\":\"\"A\",\"capacityBytesHex\":\"0x22,0x41\",\"capacityBytesDec\":[34,65],\"cells\":[null,null,null,null,null,null,null,null,null,null,null,null,null,null,null,null,null,null,null,null,null,null,null,null,null,null,null,null,null,null,null,null,null,null,null,null,null,null,null,null,null,null,null,null,null,null,null,null],\"temps\":[null,null,null,null,null,null,null,null,null,null,null,null,null,null,null,null,null,null,null,null,null,null,null,null]\x7d" := by
  refine ⟨_, pack_rule (reset s) 8 quoteBytes (by decide), rfl, ?_⟩
  have h48 := fun out => appendArray_nan fmtFloat (reset s).cellV 3 out
    (fun i => fillNaN_apply s.cellV i)
  have h24 := fun out => appendArray_nan fmtFloat (reset s).tempC 2 out
    (fun i => fillNaN_apply s.tempC i)
  simp only [toJson, h48, h24, nulls48, nulls24, quoteBytes_values.1,
    quoteBytes_values.2.1, quoteBytes_values.2.2]
  simp only [reset]
  apply String.ext
  simp only [String.data_append, List.append_assoc]
  rfl

end ESS
